import Mathlib

/-!
# Planner-hook tracing modules: `contrib/my_hook` and `contrib/planning_hook`

A shallow embedding of the two planner-hook modules and the properties of
their trace output.

* A C pointer that may be `NULL` is an inductive with a `null` constructor
  (`PathRef`, `PlanRef`) or an `Option`.
* `elog(INFO, ...)` appends one message to the trace; a renderer returns the
  list of messages it passed to `elog`, in order.
* Behaviour that C leaves undefined (reading through a null pointer, a store
  outside an array) is a `Fault`: the function returns `Except.error` and no
  result. What the C code had passed to `elog` before that point is not part
  of the model, which says nothing about an execution after a fault.
* The `double` estimates are fixed-point numbers, a `Nat` counting hundredths
  (`1000` is `10.00`); `%.2f` and `%.0f` are defined on that representation.
-/

namespace PgHook

/-! ## Data model -/

/-- Modelled from the spec: the enumeration `NodeTag` is declared in
`nodes/nodes.h`, outside the two source files. The constructors are the tags
the sources name in their `switch` and `IsA` tests; `T_Other n` stands for
every other tag value. -/
inductive NodeTag where
  | T_Path
  | T_IndexPath
  | T_BitmapHeapPath
  | T_BitmapAndPath
  | T_BitmapOrPath
  | T_TidPath
  | T_SubqueryScanPath
  | T_NestPath
  | T_MergePath
  | T_HashPath
  | T_AppendPath
  | T_SeqScanState
  | T_SeqScan
  | T_IndexScan
  | T_BitmapHeapScan
  | T_NestLoop
  | T_HashJoin
  | T_MergeJoin
  | T_Agg
  | T_Sort
  | T_Hash
  | T_Append
  | T_Other (n : Nat)
  deriving DecidableEq, Repr

/-- Estimates (`Cost`, `Cardinality`: C `double`) as a count of hundredths. -/
abbrev Cost := Nat

/-- Modelled from the spec: `Path *`, whose struct is declared in
`nodes/pathnodes.h`. A reference is `NULL` or points to a node carrying the
fields the sources read: the tag, `startup_cost`, `total_cost`, `rows`, and
the two operand references `outerjoinpath` / `innerjoinpath` that the sources
reach through the `JoinPath` cast. For a node whose tag is no join tag the
two references stand for whatever else the node carries. -/
inductive PathRef where
  | null
  | node (tag : NodeTag) (startup_cost total_cost rows : Cost)
      (outerjoinpath innerjoinpath : PathRef)
  deriving DecidableEq, Repr

/-- Modelled from the spec: `Plan *`, whose struct is declared in
`nodes/plannodes.h`, with the fields the sources read. -/
inductive PlanRef where
  | null
  | node (tag : NodeTag) (startup_cost total_cost plan_rows : Cost)
      (plan_width : Int) (lefttree righttree : PlanRef)
  deriving DecidableEq, Repr

/-- Modelled from the spec: `RelOptInfo` (`nodes/pathnodes.h`). `pathlist` is
the list of candidate `Path *`; `address` is the value of the pointer to the
struct, which `%p` prints. -/
structure RelOptInfo where
  address : Nat
  pathlist : List PathRef
  deriving DecidableEq, Repr

/-- Modelled from the spec: `PlannerInfo` (`nodes/pathnodes.h`).
`simple_rel_array` has `simple_rel_array_size` slots, each a `RelOptInfo *`
that may be `NULL`; `join_rel_list` is a list of `RelOptInfo *`. -/
structure PlannerInfo where
  simple_rel_array : List (Option RelOptInfo)
  join_rel_list : List (Option RelOptInfo)
  deriving DecidableEq, Repr

/-- The field `simple_rel_array_size`: the number of slots of the array. -/
def PlannerInfo.simple_rel_array_size (root : PlannerInfo) : Nat :=
  root.simple_rel_array.length

/-- Modelled from the spec: `PlannedStmt` (`nodes/plannodes.h`): the plan tree
the sources read, and `queryId` for the rest of the statement. -/
structure PlannedStmt where
  planTree : PlanRef
  queryId : Nat
  deriving DecidableEq, Repr

/-- The four arguments of a planner hook. `Query *` and `ParamListInfo` are
handles that the hook only passes on. -/
structure PlannerArgs where
  parse : Nat
  query_string : String
  cursorOptions : Int
  boundParams : Nat
  deriving DecidableEq, Repr

/-- Undefined behaviour of the C code, made explicit. -/
inductive Fault where
  | null_dereference
  | buffer_overflow (index size : Nat)
  deriving DecidableEq, Repr

/-! ## Indentation buffer and `printf` conversions -/

/-- The terminating byte of a C string. -/
def NUL : Char := Char.ofNat 0

/-- `memset(buf, c, sizeof(buf))` on a fresh `char buf[size]`. -/
def memset (size : Nat) (c : Char) : List Char :=
  List.replicate size c

/-- `buf[i] = c`: a store outside the array is a fault. -/
def store (buf : List Char) (i : Nat) (c : Char) : Except Fault (List Char) :=
  if i < buf.length then .ok (buf.set i c) else .error (.buffer_overflow i buf.length)

/-- What `%s` prints for a buffer: the bytes before the first `NUL`. -/
def c_str (buf : List Char) : String :=
  String.mk (buf.takeWhile (fun c => c != NUL))

/-- Two decimal digits. -/
def two_digits (n : Nat) : String :=
  if n < 10 then "0" ++ toString n else toString n

/-- `%.2f` on a count of hundredths. -/
def fmt_2f (c : Cost) : String :=
  toString (c / 100) ++ "." ++ two_digits (c % 100)

/-- `%.0f` on a count of hundredths: round to nearest, ties to even. -/
def fmt_0f (c : Cost) : String :=
  let q := c / 100
  let r := c % 100
  if r < 50 then toString q
  else if 50 < r then toString (q + 1)
  else if q % 2 = 0 then toString q else toString (q + 1)

/-- `%d`. -/
def fmt_d (n : Int) : String :=
  toString n

/-- `%p`: the address in hexadecimal after `0x`. -/
def fmt_p (a : Nat) : String :=
  "0x" ++ String.mk (Nat.toDigits 16 a)

/-- The test `IsA(path, NestPath) || IsA(path, MergePath) || IsA(path, HashPath)`. -/
def is_join_path (tag : NodeTag) : Bool :=
  tag = .T_NestPath || tag = .T_MergePath || tag = .T_HashPath

/-- `foreach` / `for`: run the body on each element in order and append the
output of the iterations; the first fault ends the loop. -/
def for_each {α β : Type} (xs : List α) (body : α → Except Fault (List β)) :
    Except Fault (List β) :=
  match xs with
  | [] => .ok []
  | x :: rest =>
    match body x with
    | .error f => .error f
    | .ok out =>
      match for_each rest body with
      | .error f => .error f
      | .ok outs => .ok (out ++ outs)

/-! ## `contrib/my_hook/my_hook.c` -/

namespace my_hook

/-- The `switch (nodeTag(path))` of `print_path`. -/
def print_path_type (tag : NodeTag) : String :=
  match tag with
  | .T_NestPath => "Nested Loop Join"
  | .T_HashPath => "Hash Join"
  | .T_MergePath => "Merge Join"
  | .T_SeqScanState => "Seq Scan"
  | .T_IndexPath => "Index Scan"
  | .T_BitmapHeapPath => "Bitmap Heap Scan"
  | .T_AppendPath => "Append"
  | .T_BitmapAndPath => "Bitmap And"
  | .T_BitmapOrPath => "Bitmap Or"
  | .T_TidPath => "TID Scan"
  | .T_SubqueryScanPath => "Subquery Scan"
  | _ => "Other Path"

/-- The message `"%sPath type: %s | cost=%.2f | rows=%.2f"`. -/
def path_type_msg (indent type : String) (total_cost rows : Cost) : String :=
  indent ++ "Path type: " ++ type ++ " | cost=" ++ fmt_2f total_cost ++ " | rows=" ++ fmt_2f rows

/-- `print_path(path, level)`: the messages passed to `elog`, in order.
The store `prefix[level * 2] = 0` into `char prefix[32]` comes first, then
`nodeTag(path)` reads through `path`. (`level` is a C `int`; it starts at 0
and grows by one per call, and a level of 16 already faults, so the `int`
never wraps.) -/
def print_path (path : PathRef) (level : Nat) : Except Fault (List String) :=
  match store (memset 32 ' ') (level * 2) NUL with
  | .error f => .error f
  | .ok buf =>
    match path with
    | .null => .error .null_dereference
    | .node tag _ total_cost rows outerjoinpath innerjoinpath =>
      let line := path_type_msg (c_str buf) (print_path_type tag) total_cost rows
      if is_join_path tag then
        match print_path outerjoinpath (level + 1) with
        | .error f => .error f
        | .ok outer =>
          match print_path innerjoinpath (level + 1) with
          | .error f => .error f
          | .ok inner =>
            .ok (line :: (c_str buf ++ "  [Join left:]") :: outer
                  ++ (c_str buf ++ "  [Join right:]") :: inner)
      else .ok [line]

/-- The `switch (nodeTag(path))` of `log_paths`. -/
def log_paths_type (tag : NodeTag) : String :=
  match tag with
  | .T_Path => "Seq Scan"
  | .T_IndexPath => "Index Scan"
  | .T_BitmapHeapPath => "Bitmap Heap Scan"
  | .T_NestPath => "Nested Loop Join"
  | .T_HashPath => "Hash Join"
  | .T_MergePath => "Merge Join"
  | .T_AppendPath => "Append"
  | _ => "Other Path"

/-- The body of the `foreach` of `log_paths` for one list cell. -/
def log_paths_cell (path : PathRef) : Except Fault (List String) :=
  match print_path path 0 with
  | .error f => .error f
  | .ok out =>
    match path with
    | .null => .error .null_dereference
    | .node tag _ total_cost rows _ _ =>
      .ok (out ++ [path_type_msg "" (log_paths_type tag) total_cost rows])

/-- `log_paths(rel)`. -/
def log_paths (rel : Option RelOptInfo) : Except Fault (List String) :=
  match rel with
  | none => .ok []
  | some r => if r.pathlist = [] then .ok [] else for_each r.pathlist log_paths_cell

end my_hook

/-! ## `contrib/planning_hook/planning_hook.c` -/

namespace planning_hook

/-- The `switch (nodeTag(plan))` of `print_plan_tree`. -/
def print_plan_tree_type (tag : NodeTag) : String :=
  match tag with
  | .T_SeqScan => "Seq Scan"
  | .T_IndexScan => "Index Scan"
  | .T_BitmapHeapScan => "Bitmap Heap Scan"
  | .T_NestLoop => "Nested Loop Join"
  | .T_HashJoin => "Hash Join"
  | .T_MergeJoin => "Merge Join"
  | .T_Agg => "Aggregate"
  | .T_Sort => "Sort"
  | .T_Hash => "Hash"
  | .T_Append => "Append"
  | _ => "Other Plan"

/-- The message `"%sSelected Plan: %s  cost=%.2f..%.2f rows=%.0f width=%d"`. -/
def selected_plan_msg (indent type : String) (startup_cost total_cost plan_rows : Cost)
    (plan_width : Int) : String :=
  indent ++ "Selected Plan: " ++ type ++ "  cost=" ++ fmt_2f startup_cost ++ ".."
    ++ fmt_2f total_cost ++ " rows=" ++ fmt_0f plan_rows ++ " width=" ++ fmt_d plan_width

/-- `print_plan_tree(plan, indent)`: the null test comes first, then the
store `prefix[indent * 2] = 0` into `char prefix[64]`, the node line, and the
two children, each behind its own null test. -/
def print_plan_tree (plan : PlanRef) (indent : Nat) : Except Fault (List String) :=
  match plan with
  | .null => .ok []
  | .node tag startup_cost total_cost plan_rows plan_width lefttree righttree =>
    match store (memset 64 ' ') (indent * 2) NUL with
    | .error f => .error f
    | .ok buf =>
      let line := selected_plan_msg (c_str buf) (print_plan_tree_type tag)
        startup_cost total_cost plan_rows plan_width
      match (if lefttree = .null then .ok [] else print_plan_tree lefttree (indent + 1)) with
      | .error f => .error f
      | .ok left =>
        match (if righttree = .null then .ok [] else print_plan_tree righttree (indent + 1)) with
        | .error f => .error f
        | .ok right => .ok (line :: left ++ right)

/-- The `switch (nodeTag(path))` of `print_path_info`. -/
def print_path_info_type (tag : NodeTag) : String :=
  match tag with
  | .T_SeqScan => "Seq Scan"
  | .T_IndexPath => "Index Scan"
  | .T_BitmapHeapPath => "Bitmap Heap Scan"
  | .T_NestPath => "Nested Loop Join"
  | .T_HashPath => "Hash Join"
  | .T_MergePath => "Merge Join"
  | .T_AppendPath => "Append"
  | _ => "Other Path"

/-- The message `"%sPath: %s  cost=%.2f..%.2f  rows=%.0f"`. -/
def path_msg (indent type : String) (startup_cost total_cost rows : Cost) : String :=
  indent ++ "Path: " ++ type ++ "  cost=" ++ fmt_2f startup_cost ++ ".." ++ fmt_2f total_cost
    ++ "  rows=" ++ fmt_0f rows

/-- The three statements that fill `char indent[32]` at the head of
`print_path_info`: the `memset`, the store at `sizeof(indent) - 1`, the store
at `level * 2`. -/
def print_path_info_indent (level : Nat) : Except Fault (List Char) :=
  match store (memset 32 ' ') (32 - 1) NUL with
  | .error f => .error f
  | .ok buf => store buf (level * 2) NUL

/-- `print_path_info(path, level)`: the messages passed to `elog`, in order. -/
def print_path_info (path : PathRef) (level : Nat) : Except Fault (List String) :=
  match print_path_info_indent level with
  | .error f => .error f
  | .ok buf =>
    match path with
    | .null => .error .null_dereference
    | .node tag startup_cost total_cost rows outerjoinpath innerjoinpath =>
      let line := path_msg (c_str buf) (print_path_info_type tag) startup_cost total_cost rows
      if is_join_path tag then
        match print_path_info outerjoinpath (level + 1) with
        | .error f => .error f
        | .ok outer =>
          match print_path_info innerjoinpath (level + 1) with
          | .error f => .error f
          | .ok inner =>
            .ok (line :: (c_str buf ++ "  Outer:") :: outer
                  ++ (c_str buf ++ "  Inner:") :: inner)
      else .ok [line]

end planning_hook

/-! ## The hook functions -/

/-- What a planner hook invocation does that an observer sees: the call of
the underlying planner, a message passed to `elog(INFO, ...)`, a text written
to standard output by `printf`. -/
inductive Event where
  | call_prev_planner_hook (args : PlannerArgs)
  | call_standard_planner (args : PlannerArgs)
  | elog (msg : String)
  | printf (msg : String)
  deriving DecidableEq, Repr

/-- Modelled from the spec: a planner entry point (`planner_hook_type`,
`standard_planner`, declared in `optimizer/planner.h`). It maps the four
arguments and the value of `global_root` before the call to the statement it
returns (a `PlannedStmt *` that is never `NULL`) and the value of
`global_root` after the call. -/
abbrev Planner := PlannerArgs → Option PlannerInfo → PlannedStmt × Option PlannerInfo

/-- The state a hook invocation reads: the static `prev_planner_hook`, the
code of `standard_planner`, and the extern `global_root`. -/
structure HookEnv where
  prev_planner_hook : Option Planner
  standard_planner : Planner
  global_root : Option PlannerInfo

/-- The `if (prev_planner_hook) ... else ...` at the head of both hook
functions: the event of the call, the returned statement, and `global_root`
after the call. -/
def call_planner (env : HookEnv) (args : PlannerArgs) :
    Event × PlannedStmt × Option PlannerInfo :=
  match env.prev_planner_hook with
  | some prev => (.call_prev_planner_hook args, prev args env.global_root)
  | none => (.call_standard_planner args, env.standard_planner args env.global_root)

namespace my_hook

/-- The body of the `for` loop of `my_planner_hook` for index `i`. -/
def my_planner_hook_slot (root : PlannerInfo) (i : Nat) : Except Fault (List Event) :=
  match root.simple_rel_array.getD i none with
  | none => .ok [.printf ("Examining relation " ++ toString i ++ "\n")]
  | some rel =>
    match log_paths (some rel) with
    | .error f => .error f
    | .ok out => .ok (.printf ("Examining relation " ++ toString i ++ "\n") :: out.map .elog)

/-- The loop `for (int i = 1; i < root->simple_rel_array_size; i++)` of
`my_planner_hook`. -/
def my_planner_hook_loop (root : PlannerInfo) : Except Fault (List Event) :=
  for_each (List.range' 1 (root.simple_rel_array_size - 1)) (my_planner_hook_slot root)

/-- `my_planner_hook` of `my_hook.c`: the returned statement and the events
in order. -/
def my_planner_hook (env : HookEnv) (args : PlannerArgs) :
    Except Fault (PlannedStmt × List Event) :=
  match call_planner env args with
  | (call, result, root) =>
    match root with
    | none => .ok (result, [call, .elog "Global root is NULL. Cannot log paths."])
    | some root =>
      match my_planner_hook_loop root with
      | .error f => .error f
      | .ok out => .ok (result, call :: out)

end my_hook

namespace planning_hook

/-- The `foreach` over `rel->pathlist` with body `print_path_info(path, 1)`. -/
def print_pathlist (rel : RelOptInfo) : Except Fault (List String) :=
  for_each rel.pathlist (fun path => print_path_info path 1)

/-- The body of the `for` loop over `simple_rel_array` for index `i`. -/
def my_planner_hook_slot (root : PlannerInfo) (i : Nat) : Except Fault (List String) :=
  match root.simple_rel_array.getD i none with
  | none => .ok []
  | some rel =>
    match print_pathlist rel with
    | .error f => .error f
    | .ok out => .ok (("Relation #" ++ toString i) :: out)

/-- The body of the `foreach` over `join_rel_list` for one cell. -/
def my_planner_hook_join_rel (rel : Option RelOptInfo) : Except Fault (List String) :=
  match rel with
  | none => .ok []
  | some rel =>
    match print_pathlist rel with
    | .error f => .error f
    | .ok out => .ok (("Join Relation " ++ fmt_p rel.address) :: out)

/-- The loop `for (int i = 1; i < root->simple_rel_array_size; i++)` of
`my_planner_hook`. -/
def my_planner_hook_loop (root : PlannerInfo) : Except Fault (List String) :=
  for_each (List.range' 1 (root.simple_rel_array_size - 1)) (my_planner_hook_slot root)

/-- The loop `foreach(lc, root->join_rel_list)` of `my_planner_hook`. -/
def my_planner_hook_join_loop (root : PlannerInfo) : Except Fault (List String) :=
  for_each root.join_rel_list my_planner_hook_join_rel

/-- `my_planner_hook` of `planning_hook.c`: the returned statement and the
events in order. -/
def my_planner_hook (env : HookEnv) (args : PlannerArgs) :
    Except Fault (PlannedStmt × List Event) :=
  match call_planner env args with
  | (call, result, root) =>
    match root with
    | none => .ok (result, [call, .elog "Global root is NULL. Cannot log paths."])
    | some root =>
      match print_plan_tree result.planTree 0 with
      | .error f => .error f
      | .ok plan =>
        match my_planner_hook_loop root with
        | .error f => .error f
        | .ok base =>
          match my_planner_hook_join_loop root with
          | .error f => .error f
          | .ok joins =>
            .ok (result, call :: (("\nLogging paths for all relations in the query...\n")
              :: plan ++ base ++ joins).map .elog)

end planning_hook

/-! ## Specification side

The listings below do not mention buffers, stores or faults: they say what
the trace of a tree is, level by level. The theorems relate the code above to
them. -/

/-- A string of `n` spaces. -/
def spaces (n : Nat) : String :=
  String.mk (List.replicate n ' ')

/-- The number of leading spaces of a message. -/
def indentation (msg : String) : Nat :=
  (msg.data.takeWhile (fun c => c == ' ')).length

/-- One line of the listing of a candidate-path tree: the line of a node at
a level, or one of the two label lines of a join node at that level. -/
inductive PathItem where
  | node (tag : NodeTag) (startup_cost total_cost rows : Cost) (level : Nat)
  | outer_label (level : Nat)
  | inner_label (level : Nat)
  deriving DecidableEq, Repr

/-- The listing of a candidate-path tree whose root is at `level`: the node,
and for a node with a join tag the first label, the listing of the outer
operand one level down, the second label, the listing of the inner operand
one level down. -/
def path_items : PathRef → Nat → List PathItem
  | .null, _ => []
  | .node tag startup_cost total_cost rows outerjoinpath innerjoinpath, level =>
    .node tag startup_cost total_cost rows level ::
      (if is_join_path tag then
        .outer_label level :: path_items outerjoinpath (level + 1)
          ++ .inner_label level :: path_items innerjoinpath (level + 1)
      else [])

/-- The nodes reachable from the root through `outerjoinpath` and
`innerjoinpath` of nodes with a join tag, in pre-order, each with its level. -/
def join_reachable : PathRef → Nat → List PathItem
  | .null, _ => []
  | .node tag startup_cost total_cost rows outerjoinpath innerjoinpath, level =>
    .node tag startup_cost total_cost rows level ::
      (if is_join_path tag then
        join_reachable outerjoinpath (level + 1) ++ join_reachable innerjoinpath (level + 1)
      else [])

/-- Whether an item is the line of a node. -/
def PathItem.is_node : PathItem → Bool
  | .node _ _ _ _ _ => true
  | _ => false

/-- The supported range of the path renderers at `level`: the reference is
not null, the level is at most 15, and for a node with a join tag both
operands are in the supported range one level down. -/
def path_fits : PathRef → Nat → Bool
  | .null, _ => false
  | .node tag _ _ _ outerjoinpath innerjoinpath, level =>
    decide (level ≤ 15) &&
      (if is_join_path tag then
        path_fits outerjoinpath (level + 1) && path_fits innerjoinpath (level + 1)
      else true)

/-- The listing of a plan tree whose root is at `indent`: the node with its
level, then the listing of `lefttree`, then that of `righttree`. -/
def plan_items : PlanRef → Nat → List (NodeTag × Cost × Cost × Cost × Int × Nat)
  | .null, _ => []
  | .node tag startup_cost total_cost plan_rows plan_width lefttree righttree, indent =>
    (tag, startup_cost, total_cost, plan_rows, plan_width, indent) ::
      (plan_items lefttree (indent + 1) ++ plan_items righttree (indent + 1))

/-- The supported range of the plan renderer: every node at a level of at
most 31. -/
def plan_fits : PlanRef → Nat → Bool
  | .null, _ => true
  | .node _ _ _ _ _ lefttree righttree, indent =>
    decide (indent ≤ 31) && plan_fits lefttree (indent + 1) && plan_fits righttree (indent + 1)

namespace my_hook

/-- The message of a listing item in the format of `print_path`. -/
def render_item : PathItem → String
  | .node tag _ total_cost rows level =>
    path_type_msg (spaces (2 * level)) (print_path_type tag) total_cost rows
  | .outer_label level => spaces (2 * level) ++ "  [Join left:]"
  | .inner_label level => spaces (2 * level) ++ "  [Join right:]"

end my_hook

namespace planning_hook

/-- The message of a listing item in the format of `print_path_info`. -/
def render_item : PathItem → String
  | .node tag startup_cost total_cost rows level =>
    path_msg (spaces (2 * level)) (print_path_info_type tag) startup_cost total_cost rows
  | .outer_label level => spaces (2 * level) ++ "  Outer:"
  | .inner_label level => spaces (2 * level) ++ "  Inner:"

/-- The message of a plan listing item in the format of `print_plan_tree`. -/
def render_plan_item (it : NodeTag × Cost × Cost × Cost × Int × Nat) : String :=
  selected_plan_msg (spaces (2 * it.2.2.2.2.2)) (print_plan_tree_type it.1)
    it.2.1 it.2.2.1 it.2.2.2.1 it.2.2.2.2.1

end planning_hook

/-- The statement the underlying planner returns: that of the saved previous
hook when one is saved, that of `standard_planner` otherwise. -/
def delegated_plan (env : HookEnv) (args : PlannerArgs) : PlannedStmt :=
  match env.prev_planner_hook with
  | some prev => (prev args env.global_root).1
  | none => (env.standard_planner args env.global_root).1

/-- The value of `global_root` when the underlying planner has returned. -/
def global_root_after (env : HookEnv) (args : PlannerArgs) : Option PlannerInfo :=
  match env.prev_planner_hook with
  | some prev => (prev args env.global_root).2
  | none => (env.standard_planner args env.global_root).2

/-- The event of the call of the underlying planner. -/
def delegated_call (env : HookEnv) (args : PlannerArgs) : Event :=
  match env.prev_planner_hook with
  | some _ => .call_prev_planner_hook args
  | none => .call_standard_planner args

/-- The slot `i` of the relation array, `none` for an absent relation. -/
def PlannerInfo.slot (root : PlannerInfo) (i : Nat) : Option RelOptInfo :=
  root.simple_rel_array.getD i none

/-- Whether every candidate of a relation is in the supported range of the
path renderers at `level`. -/
def rel_fits (level : Nat) (rel : Option RelOptInfo) : Bool :=
  match rel with
  | none => true
  | some r => r.pathlist.all (fun path => path_fits path level)

/-- Whether the candidates of every relation in the slots `1 ..
simple_rel_array_size - 1` are in the supported range at `level`. -/
def base_rels_fit (level : Nat) (root : PlannerInfo) : Bool :=
  (List.range' 1 (root.simple_rel_array_size - 1)).all (fun i => rel_fits level (root.slot i))

/-- Whether the candidates of every join relation are in the supported range
at `level`. -/
def join_rels_fit (level : Nat) (root : PlannerInfo) : Bool :=
  root.join_rel_list.all (rel_fits level)

namespace my_hook

/-- The line `log_paths` itself writes for a candidate, after `print_path`. -/
def log_paths_line : PathRef → List String
  | .null => []
  | .node tag _ total_cost rows _ _ => [path_type_msg "" (log_paths_type tag) total_cost rows]

/-- The lines of one candidate: its listing from level 0 in the format of
`print_path`, then the line of `log_paths`. -/
def candidate_lines (path : PathRef) : List String :=
  (path_items path 0).map render_item ++ log_paths_line path

/-- The events of slot `i`: the text on standard output, then for a present
relation the lines of its candidates in list order. -/
def slot_events (root : PlannerInfo) (i : Nat) : List Event :=
  .printf ("Examining relation " ++ toString i ++ "\n") ::
    (match root.slot i with
      | none => []
      | some rel => rel.pathlist.flatMap candidate_lines).map .elog

/-- The events of the sweep: those of the slots `1 .. simple_rel_array_size -
1` in ascending order. -/
def sweep_events (root : PlannerInfo) : List Event :=
  (List.range' 1 (root.simple_rel_array_size - 1)).flatMap (slot_events root)

end my_hook

namespace planning_hook

/-- The lines of the candidates of a relation: the listing of each from level
1 in the format of `print_path_info`, in list order. -/
def pathlist_lines (rel : RelOptInfo) : List String :=
  rel.pathlist.flatMap (fun path => (path_items path 1).map render_item)

/-- The lines of slot `i`: nothing for an absent relation, the header and the
lines of the candidates for a present one. -/
def slot_lines (root : PlannerInfo) (i : Nat) : List String :=
  match root.slot i with
  | none => []
  | some rel => ("Relation #" ++ toString i) :: pathlist_lines rel

/-- The lines of the sweep over the base relations: those of the slots `1 ..
simple_rel_array_size - 1` in ascending order. -/
def sweep_lines (root : PlannerInfo) : List String :=
  (List.range' 1 (root.simple_rel_array_size - 1)).flatMap (slot_lines root)

/-- The lines of one cell of `join_rel_list`. -/
def join_rel_lines (rel : Option RelOptInfo) : List String :=
  match rel with
  | none => []
  | some rel => ("Join Relation " ++ fmt_p rel.address) :: pathlist_lines rel

/-- The lines of the sweep over the join relations, in list order. -/
def join_sweep_lines (root : PlannerInfo) : List String :=
  root.join_rel_list.flatMap join_rel_lines

end planning_hook

/-- The messages passed to `elog` in a trace, in order. -/
def elog_msgs : List Event → List String
  | [] => []
  | .elog msg :: rest => msg :: elog_msgs rest
  | _ :: rest => elog_msgs rest

/-! ## Sample inputs -/

/-- A sequential scan candidate: a plain `Path` node, `total_cost` 10.00 and
`rows` 100.00. -/
def seq_scan_path : PathRef :=
  .node .T_Path 0 1000 10000 .null .null

/-- An index scan candidate. -/
def index_scan_path : PathRef :=
  .node .T_IndexPath 25 850 4000 .null .null

/-- A hash join of the two scans above. -/
def hash_join_path : PathRef :=
  .node .T_HashPath 150 2575 4000 seq_scan_path index_scan_path

/-- A chain of `n` nested-loop joins, each with the chain below it as outer
operand and a sequential scan as inner operand. -/
def left_deep : Nat → PathRef
  | 0 => seq_scan_path
  | n + 1 => .node .T_NestPath 0 1000 10000 (left_deep n) seq_scan_path

/-- A plan: a sort over a sequential scan. -/
def sort_plan : PlanRef :=
  .node .T_Sort 1200 1450 10000 8 (.node .T_SeqScan 0 1000 10000 8 .null .null) .null

/-- The statement of the sample planner. -/
def sample_stmt : PlannedStmt :=
  ⟨sort_plan, 42⟩

/-- Arguments of a hook call. -/
def sample_args : PlannerArgs :=
  ⟨1, "SELECT * FROM t ORDER BY a", 0, 0⟩

/-- An environment without a saved previous hook, whose `standard_planner`
returns `sample_stmt` and leaves `root` in `global_root`. -/
def sample_env (root : Option PlannerInfo) : HookEnv :=
  ⟨none, fun _ _ => (sample_stmt, root), none⟩

/-- Scenario A: relation array of size 2, slot 0 empty, slot 1 a relation
with the one sequential scan candidate. -/
def scenario_A : PlannerInfo :=
  ⟨[none, some ⟨4096, [seq_scan_path]⟩], []⟩

/-- A plan node without a join tag, an append, over two sequential scans. -/
def append_plan : PlanRef :=
  .node .T_Append 0 2000 20000 8
    (.node .T_SeqScan 0 1000 10000 8 .null .null)
    (.node .T_SeqScan 0 1000 10000 8 .null .null)

/-- A path node of the same shape: an append path, no join tag, whose two
references point to scans. -/
def append_path : PathRef :=
  .node .T_AppendPath 0 2000 20000 seq_scan_path index_scan_path

/-- Scenario C: relation array of size 3, slot 0 empty, slots 1 and 2 each a
relation with candidates. -/
def scenario_C : PlannerInfo :=
  ⟨[none, some ⟨4096, [seq_scan_path, index_scan_path]⟩, some ⟨8192, [hash_join_path]⟩], []⟩

/-! ## Module load and unload -/

/-- Modelled from the spec: a value of `planner_hook_type`, a pointer to a
planner hook function (`optimizer/planner.h`): the `my_planner_hook` of one of
the two modules, or some other function at an address. -/
inductive HookPtr where
  | my_hook_my_planner_hook
  | planning_hook_my_planner_hook
  | other (address : Nat)
  deriving DecidableEq, Repr

/-- The two variables `_PG_init` and `_PG_fini` touch: the global
`planner_hook` and the static `prev_planner_hook` of the module; `none` is a
null pointer. -/
structure HookState where
  planner_hook : Option HookPtr
  prev_planner_hook : Option HookPtr
  deriving DecidableEq, Repr

namespace my_hook

/-- `_PG_init` of `my_hook.c`. -/
def _PG_init (s : HookState) : HookState :=
  { prev_planner_hook := s.planner_hook, planner_hook := some .my_hook_my_planner_hook }

/-- `_PG_fini` of `my_hook.c`. -/
def _PG_fini (s : HookState) : HookState :=
  { s with planner_hook := s.prev_planner_hook }

/-- The tags the `switch` of `print_path` lists. -/
def print_path_tags : List NodeTag :=
  [.T_NestPath, .T_HashPath, .T_MergePath, .T_SeqScanState, .T_IndexPath, .T_BitmapHeapPath,
    .T_AppendPath, .T_BitmapAndPath, .T_BitmapOrPath, .T_TidPath, .T_SubqueryScanPath]

/-- The tags the `switch` of `log_paths` lists. -/
def log_paths_tags : List NodeTag :=
  [.T_Path, .T_IndexPath, .T_BitmapHeapPath, .T_NestPath, .T_HashPath, .T_MergePath,
    .T_AppendPath]

end my_hook

namespace planning_hook

/-- `_PG_init` of `planning_hook.c`. -/
def _PG_init (s : HookState) : HookState :=
  { prev_planner_hook := s.planner_hook, planner_hook := some .planning_hook_my_planner_hook }

/-- `_PG_fini` of `planning_hook.c`. -/
def _PG_fini (s : HookState) : HookState :=
  { s with planner_hook := s.prev_planner_hook }

/-- The tags the `switch` of `print_plan_tree` lists. -/
def print_plan_tree_tags : List NodeTag :=
  [.T_SeqScan, .T_IndexScan, .T_BitmapHeapScan, .T_NestLoop, .T_HashJoin, .T_MergeJoin,
    .T_Agg, .T_Sort, .T_Hash, .T_Append]

/-- The tags the `switch` of `print_path_info` lists. -/
def print_path_info_tags : List NodeTag :=
  [.T_SeqScan, .T_IndexPath, .T_BitmapHeapPath, .T_NestPath, .T_HashPath, .T_MergePath,
    .T_AppendPath]

end planning_hook

/-! ## Counting -/

/-- The number of nodes of a plan tree. -/
def plan_nodes : PlanRef → Nat
  | .null => 0
  | .node _ _ _ _ _ lefttree righttree => 1 + plan_nodes lefttree + plan_nodes righttree

/-- The number of nodes with a join tag among the nodes reachable from the
root through the operands of nodes with a join tag. -/
def join_count : PathRef → Nat
  | .null => 0
  | .node tag _ _ _ outerjoinpath innerjoinpath =>
    if is_join_path tag then 1 + join_count outerjoinpath + join_count innerjoinpath else 0

/-- Whether an event is the call of an underlying planner. -/
def Event.is_call : Event → Bool
  | .call_prev_planner_hook _ => true
  | .call_standard_planner _ => true
  | _ => false

/-- A context with two base relations and one join relation. -/
def scenario_join : PlannerInfo :=
  ⟨[none, some ⟨4096, [seq_scan_path]⟩, some ⟨8192, [index_scan_path]⟩],
    [some ⟨12288, [hash_join_path]⟩]⟩

/-- A plan node with a tag that no classifier lists, over a sequential scan. -/
def unknown_plan : PlanRef :=
  .node (.T_Other 7) 500 900 3000 16 (.node .T_SeqScan 0 1000 10000 8 .null .null) .null

/-- A context whose one join relation holds a chain of 15 joins, the join
of 16 relations, as candidate. -/
def deep_join_root : PlannerInfo :=
  ⟨[none, some ⟨4096, [seq_scan_path]⟩], [some ⟨12288, [left_deep 15]⟩]⟩

/-- An environment with a saved previous hook that returns `sample_stmt` and
leaves `root` in `global_root`. -/
def chained_env (root : Option PlannerInfo) : HookEnv :=
  ⟨some (fun _ _ => (sample_stmt, root)), fun _ _ => (⟨.null, 0⟩, none), none⟩

/-! ## The indentation buffer -/

theorem store_indent_32 (level : Nat) (h : level ≤ 15) :
    ∃ buf, store (memset 32 ' ') (level * 2) NUL = .ok buf ∧ c_str buf = spaces (2 * level) := by
  interval_cases level <;> exact ⟨_, rfl, rfl⟩

theorem store_indent_32_overflow (level : Nat) (h : 16 ≤ level) :
    store (memset 32 ' ') (level * 2) NUL = .error (.buffer_overflow (level * 2) 32) := by
  have h2 : ¬ level * 2 < 32 := by omega
  simp [store, memset, h2]

theorem print_path_info_indent_ok (level : Nat) (h : level ≤ 15) :
    ∃ buf, planning_hook.print_path_info_indent level = .ok buf
      ∧ c_str buf = spaces (2 * level) := by
  interval_cases level <;> exact ⟨_, rfl, rfl⟩

theorem print_path_info_indent_overflow (level : Nat) (h : 16 ≤ level) :
    planning_hook.print_path_info_indent level = .error (.buffer_overflow (level * 2) 32) := by
  have h2 : ¬ level * 2 < 32 := by omega
  have h3 : store (memset 32 ' ') (32 - 1) NUL
      = .ok ((memset 32 ' ').set 31 NUL) := rfl
  simp [planning_hook.print_path_info_indent, h3, store, memset, h2]

theorem store_indent_64 (indent : Nat) (h : indent ≤ 31) :
    ∃ buf, store (memset 64 ' ') (indent * 2) NUL = .ok buf ∧ c_str buf = spaces (2 * indent) := by
  interval_cases indent <;> exact ⟨_, rfl, rfl⟩

theorem store_indent_64_overflow (indent : Nat) (h : 32 ≤ indent) :
    store (memset 64 ' ') (indent * 2) NUL = .error (.buffer_overflow (indent * 2) 64) := by
  have h2 : ¬ indent * 2 < 64 := by omega
  simp [store, memset, h2]

/-! ## The renderers against their listings -/

theorem print_path_of_fits (path : PathRef) :
    ∀ level, path_fits path level = true →
      my_hook.print_path path level = .ok ((path_items path level).map my_hook.render_item) := by
  induction path with
  | null => intro level h; simp [path_fits] at h
  | node tag s t r o i iho ihi =>
    intro level h
    simp only [path_fits, Bool.and_eq_true, decide_eq_true_eq] at h
    obtain ⟨hl, hc⟩ := h
    obtain ⟨buf, hb, hs⟩ := store_indent_32 level hl
    unfold my_hook.print_path
    rw [hb]
    by_cases hj : is_join_path tag = true
    · simp only [hj, if_true, Bool.and_eq_true] at hc
      simp [hj, iho _ hc.1, ihi _ hc.2, hs, path_items, my_hook.render_item]
    · simp [hj, hs, path_items, my_hook.render_item]

theorem print_path_of_not_fits (path : PathRef) :
    ∀ level, path_fits path level = false → ∃ f, my_hook.print_path path level = .error f := by
  induction path with
  | null =>
    intro level _
    unfold my_hook.print_path
    cases store (memset 32 ' ') (level * 2) NUL <;> simp
  | node tag s t r o i iho ihi =>
    intro level h
    unfold my_hook.print_path
    by_cases hl : level ≤ 15
    · obtain ⟨buf, hb, _⟩ := store_indent_32 level hl
      rw [hb]
      by_cases hj : is_join_path tag = true
      · simp only [path_fits, hl, hj, decide_True, Bool.true_and, if_true,
          Bool.and_eq_false_iff] at h
        rcases h with h | h
        · obtain ⟨f, hf⟩ := iho _ h
          simp [hj, hf]
        · obtain ⟨f, hf⟩ := ihi _ h
          cases ho : my_hook.print_path o (level + 1) <;> simp [hj, hf, ho]
      · simp [path_fits, hl, hj] at h
    · rw [store_indent_32_overflow level (by omega)]
      exact ⟨_, rfl⟩

theorem print_path_ok_iff (path : PathRef) (level : Nat) (out : List String) :
    my_hook.print_path path level = .ok out ↔
      path_fits path level = true ∧ out = (path_items path level).map my_hook.render_item := by
  constructor
  · intro h
    cases hf : path_fits path level with
    | true =>
      rw [print_path_of_fits path level hf] at h
      exact ⟨rfl, (Except.ok.inj h).symm⟩
    | false =>
      obtain ⟨f, hf2⟩ := print_path_of_not_fits path level hf
      rw [hf2] at h
      cases h
  · rintro ⟨hf, rfl⟩
    exact print_path_of_fits path level hf

theorem print_path_info_of_fits (path : PathRef) :
    ∀ level, path_fits path level = true →
      planning_hook.print_path_info path level
        = .ok ((path_items path level).map planning_hook.render_item) := by
  induction path with
  | null => intro level h; simp [path_fits] at h
  | node tag s t r o i iho ihi =>
    intro level h
    simp only [path_fits, Bool.and_eq_true, decide_eq_true_eq] at h
    obtain ⟨hl, hc⟩ := h
    obtain ⟨buf, hb, hs⟩ := print_path_info_indent_ok level hl
    unfold planning_hook.print_path_info
    rw [hb]
    by_cases hj : is_join_path tag = true
    · simp only [hj, if_true, Bool.and_eq_true] at hc
      simp [hj, iho _ hc.1, ihi _ hc.2, hs, path_items, planning_hook.render_item]
    · simp [hj, hs, path_items, planning_hook.render_item]

theorem print_path_info_of_not_fits (path : PathRef) :
    ∀ level, path_fits path level = false →
      ∃ f, planning_hook.print_path_info path level = .error f := by
  induction path with
  | null =>
    intro level _
    unfold planning_hook.print_path_info
    cases planning_hook.print_path_info_indent level <;> simp
  | node tag s t r o i iho ihi =>
    intro level h
    unfold planning_hook.print_path_info
    by_cases hl : level ≤ 15
    · obtain ⟨buf, hb, _⟩ := print_path_info_indent_ok level hl
      rw [hb]
      by_cases hj : is_join_path tag = true
      · simp only [path_fits, hl, hj, decide_True, Bool.true_and, if_true,
          Bool.and_eq_false_iff] at h
        rcases h with h | h
        · obtain ⟨f, hf⟩ := iho _ h
          simp [hj, hf]
        · obtain ⟨f, hf⟩ := ihi _ h
          cases ho : planning_hook.print_path_info o (level + 1) <;> simp [hj, hf, ho]
      · simp [path_fits, hl, hj] at h
    · rw [print_path_info_indent_overflow level (by omega)]
      exact ⟨_, rfl⟩

theorem print_path_info_ok_iff (path : PathRef) (level : Nat) (out : List String) :
    planning_hook.print_path_info path level = .ok out ↔
      path_fits path level = true
        ∧ out = (path_items path level).map planning_hook.render_item := by
  constructor
  · intro h
    cases hf : path_fits path level with
    | true =>
      rw [print_path_info_of_fits path level hf] at h
      exact ⟨rfl, (Except.ok.inj h).symm⟩
    | false =>
      obtain ⟨f, hf2⟩ := print_path_info_of_not_fits path level hf
      rw [hf2] at h
      cases h
  · rintro ⟨hf, rfl⟩
    exact print_path_info_of_fits path level hf

theorem print_plan_tree_of_fits (plan : PlanRef) :
    ∀ indent, plan_fits plan indent = true →
      planning_hook.print_plan_tree plan indent
        = .ok ((plan_items plan indent).map planning_hook.render_plan_item) := by
  induction plan with
  | null => intro indent _; rfl
  | node tag s t r w l rt ihl ihr =>
    intro indent h
    simp only [plan_fits, Bool.and_eq_true, decide_eq_true_eq] at h
    obtain ⟨⟨hl, hfl⟩, hfr⟩ := h
    obtain ⟨buf, hb, hs⟩ := store_indent_64 indent hl
    have el : (if l = PlanRef.null then (Except.ok [] : Except Fault (List String))
        else planning_hook.print_plan_tree l (indent + 1))
        = .ok ((plan_items l (indent + 1)).map planning_hook.render_plan_item) := by
      by_cases hn : l = .null
      · subst hn; rfl
      · rw [if_neg hn]; exact ihl _ hfl
    have er : (if rt = PlanRef.null then (Except.ok [] : Except Fault (List String))
        else planning_hook.print_plan_tree rt (indent + 1))
        = .ok ((plan_items rt (indent + 1)).map planning_hook.render_plan_item) := by
      by_cases hn : rt = .null
      · subst hn; rfl
      · rw [if_neg hn]; exact ihr _ hfr
    unfold planning_hook.print_plan_tree
    rw [hb]
    simp only [el, er]
    simp [plan_items, planning_hook.render_plan_item, hs]

theorem print_plan_tree_of_not_fits (plan : PlanRef) :
    ∀ indent, plan_fits plan indent = false →
      ∃ f, planning_hook.print_plan_tree plan indent = .error f := by
  induction plan with
  | null => intro indent h; simp [plan_fits] at h
  | node tag s t r w l rt ihl ihr =>
    intro indent h
    unfold planning_hook.print_plan_tree
    by_cases hl : indent ≤ 31
    · obtain ⟨buf, hb, _⟩ := store_indent_64 indent hl
      rw [hb]
      simp only [plan_fits, hl, decide_True, Bool.true_and, Bool.and_eq_false_iff] at h
      rcases h with h | h
      · obtain ⟨f, hf⟩ := ihl _ h
        have hn : l ≠ .null := by rintro rfl; simp [plan_fits] at h
        simp [hn, hf]
      · obtain ⟨f, hf⟩ := ihr _ h
        have hn : rt ≠ .null := by rintro rfl; simp [plan_fits] at h
        cases hlft : (if l = PlanRef.null then (Except.ok [] : Except Fault (List String))
            else planning_hook.print_plan_tree l (indent + 1)) <;> simp [hn, hf, hlft]
    · rw [store_indent_64_overflow indent (by omega)]
      exact ⟨_, rfl⟩

theorem print_plan_tree_ok_iff (plan : PlanRef) (indent : Nat) (out : List String) :
    planning_hook.print_plan_tree plan indent = .ok out ↔
      plan_fits plan indent = true
        ∧ out = (plan_items plan indent).map planning_hook.render_plan_item := by
  constructor
  · intro h
    cases hf : plan_fits plan indent with
    | true =>
      rw [print_plan_tree_of_fits plan indent hf] at h
      exact ⟨rfl, (Except.ok.inj h).symm⟩
    | false =>
      obtain ⟨f, hf2⟩ := print_plan_tree_of_not_fits plan indent hf
      rw [hf2] at h
      cases h
  · rintro ⟨hf, rfl⟩
    exact print_plan_tree_of_fits plan indent hf

/-! ## Loops -/

theorem for_each_ok_iff {α β : Type} (body : α → Except Fault (List β)) (fits : α → Bool)
    (g : α → List β)
    (h : ∀ x out, body x = .ok out ↔ fits x = true ∧ out = g x) (xs : List α) :
    ∀ out, for_each xs body = .ok out ↔ xs.all fits = true ∧ out = xs.flatMap g := by
  induction xs with
  | nil =>
    intro out
    simp only [for_each, List.all_nil, List.flatMap_nil, true_and]
    constructor
    · intro e; exact (Except.ok.inj e).symm
    · rintro rfl; rfl
  | cons x rest ih =>
    intro out
    unfold for_each
    cases hx : body x with
    | error f =>
      have hn : fits x = false := by
        cases hfx : fits x with
        | false => rfl
        | true =>
          have := (h x (g x)).2 ⟨hfx, rfl⟩
          rw [hx] at this
          cases this
      simp [hn]
    | ok o =>
      obtain ⟨hfx, rfl⟩ := (h x o).1 hx
      cases hr : for_each rest body with
      | error f =>
        have hn : rest.all fits = false := by
          cases hfr : rest.all fits with
          | false => rfl
          | true =>
            have := (ih (rest.flatMap g)).2 ⟨hfr, rfl⟩
            rw [hr] at this
            cases this
        simp only [List.all_cons, hfx, hn, Bool.and_false, Bool.false_eq_true, false_and,
          iff_false]
        intro e
        cases e
      | ok os =>
        obtain ⟨hfr, rfl⟩ := (ih os).1 hr
        simp only [List.all_cons, hfx, hfr, Bool.and_self, List.flatMap_cons, true_and]
        constructor
        · intro e; exact (Except.ok.inj e).symm
        · rintro rfl; rfl

theorem not_ok_of_false {α : Type} {b : Bool} {x : Except Fault α} {g : α}
    (h : ∀ out, x = .ok out ↔ b = true ∧ out = g) (f : Fault) (hx : x = .error f) :
    b = false := by
  cases hb : b with
  | false => rfl
  | true =>
    have := (h g).2 ⟨hb, rfl⟩
    rw [hx] at this
    cases this

theorem log_paths_cell_ok_iff (path : PathRef) (out : List String) :
    my_hook.log_paths_cell path = .ok out ↔
      path_fits path 0 = true ∧ out = my_hook.candidate_lines path := by
  unfold my_hook.log_paths_cell
  cases hp : my_hook.print_path path 0 with
  | error f =>
    have hn : path_fits path 0 = false := by
      cases hf : path_fits path 0 with
      | false => rfl
      | true => rw [print_path_of_fits path 0 hf] at hp; cases hp
    simp [hn]
  | ok lines =>
    obtain ⟨hf, rfl⟩ := (print_path_ok_iff path 0 lines).1 hp
    cases path with
    | null => simp [path_fits] at hf
    | node tag s t r o i =>
      simp only [hf, true_and, my_hook.candidate_lines, my_hook.log_paths_line]
      constructor
      · intro e; exact (Except.ok.inj e).symm
      · rintro rfl; rfl

theorem log_paths_ok_iff (rel : Option RelOptInfo) (out : List String) :
    my_hook.log_paths rel = .ok out ↔
      rel_fits 0 rel = true ∧
        out = (match rel with
          | none => []
          | some r => r.pathlist.flatMap my_hook.candidate_lines) := by
  cases rel with
  | none =>
    simp only [my_hook.log_paths, rel_fits, true_and]
    constructor
    · intro e; exact (Except.ok.inj e).symm
    · rintro rfl; rfl
  | some r =>
    have key := for_each_ok_iff my_hook.log_paths_cell (fun path => path_fits path 0)
      my_hook.candidate_lines log_paths_cell_ok_iff r.pathlist out
    by_cases hnil : r.pathlist = []
    · simp only [my_hook.log_paths, hnil, if_true, rel_fits, List.all_nil, List.flatMap_nil,
        true_and]
      constructor
      · intro e; exact (Except.ok.inj e).symm
      · rintro rfl; rfl
    · simp only [my_hook.log_paths, hnil, if_false, rel_fits]
      exact key

theorem my_hook_slot_ok_iff (root : PlannerInfo) (i : Nat) (out : List Event) :
    my_hook.my_planner_hook_slot root i = .ok out ↔
      rel_fits 0 (root.slot i) = true ∧ out = my_hook.slot_events root i := by
  unfold my_hook.my_planner_hook_slot my_hook.slot_events
  change (match root.slot i with
    | none => (Except.ok [Event.printf ("Examining relation " ++ toString i ++ "\n")] :
        Except Fault (List Event))
    | some rel =>
      match my_hook.log_paths (some rel) with
      | Except.error f => Except.error f
      | Except.ok o => Except.ok (Event.printf ("Examining relation " ++ toString i ++ "\n")
          :: o.map Event.elog)) = Except.ok out ↔ _
  cases hs : root.slot i with
  | none =>
    simp only [rel_fits, true_and, List.map_nil]
    constructor
    · intro e; exact (Except.ok.inj e).symm
    · rintro rfl; rfl
  | some rel =>
    simp only
    cases hl : my_hook.log_paths (some rel) with
    | error f =>
      have hn := not_ok_of_false (log_paths_ok_iff (some rel)) f hl
      simp [hn]
    | ok lines =>
      obtain ⟨hf, rfl⟩ := (log_paths_ok_iff (some rel) lines).1 hl
      simp only [hf, true_and]
      constructor
      · intro e; exact (Except.ok.inj e).symm
      · rintro rfl; rfl

theorem my_hook_loop_ok_iff (root : PlannerInfo) (out : List Event) :
    my_hook.my_planner_hook_loop root = .ok out ↔
      base_rels_fit 0 root = true ∧ out = my_hook.sweep_events root :=
  for_each_ok_iff (my_hook.my_planner_hook_slot root) (fun i => rel_fits 0 (root.slot i))
    (my_hook.slot_events root) (my_hook_slot_ok_iff root) _ out

theorem call_planner_eq (env : HookEnv) (args : PlannerArgs) :
    call_planner env args
      = (delegated_call env args, delegated_plan env args, global_root_after env args) := by
  unfold call_planner delegated_call delegated_plan global_root_after
  cases env.prev_planner_hook <;> rfl

theorem my_hook_ok_iff (env : HookEnv) (args : PlannerArgs) (result : PlannedStmt)
    (trace : List Event) :
    my_hook.my_planner_hook env args = .ok (result, trace) ↔
      result = delegated_plan env args ∧
        (match global_root_after env args with
          | none => trace = [delegated_call env args,
              .elog "Global root is NULL. Cannot log paths."]
          | some root => base_rels_fit 0 root = true
              ∧ trace = delegated_call env args :: my_hook.sweep_events root) := by
  unfold my_hook.my_planner_hook
  rw [call_planner_eq]
  cases hr : global_root_after env args with
  | none =>
    simp only
    constructor
    · intro e
      have := Except.ok.inj e
      exact ⟨(congrArg Prod.fst this).symm, (congrArg Prod.snd this).symm⟩
    · rintro ⟨rfl, rfl⟩; rfl
  | some root =>
    simp only
    cases hl : my_hook.my_planner_hook_loop root with
    | error f =>
      have hn : base_rels_fit 0 root = false := by
        cases hf : base_rels_fit 0 root with
        | false => rfl
        | true =>
          have := (my_hook_loop_ok_iff root _).2 ⟨hf, rfl⟩
          rw [hl] at this
          cases this
      simp [hn]
    | ok evs =>
      obtain ⟨hf, rfl⟩ := (my_hook_loop_ok_iff root evs).1 hl
      simp only [hf, true_and]
      constructor
      · intro e
        have := Except.ok.inj e
        exact ⟨(congrArg Prod.fst this).symm, (congrArg Prod.snd this).symm⟩
      · rintro ⟨rfl, rfl⟩; rfl

theorem print_pathlist_ok_iff (rel : RelOptInfo) (out : List String) :
    planning_hook.print_pathlist rel = .ok out ↔
      rel_fits 1 (some rel) = true ∧ out = planning_hook.pathlist_lines rel :=
  for_each_ok_iff (fun path => planning_hook.print_path_info path 1)
    (fun path => path_fits path 1) (fun path => (path_items path 1).map planning_hook.render_item)
    (fun path o => print_path_info_ok_iff path 1 o) rel.pathlist out

theorem planning_hook_rel_ok_iff (header : String) (rel : RelOptInfo) (out : List String) :
    (match planning_hook.print_pathlist rel with
      | Except.error f => (Except.error f : Except Fault (List String))
      | Except.ok o => Except.ok (header :: o)) = Except.ok out ↔
      rel_fits 1 (some rel) = true ∧ out = header :: planning_hook.pathlist_lines rel := by
  cases hl : planning_hook.print_pathlist rel with
  | error f =>
    have hn : rel_fits 1 (some rel) = false := by
      cases hf : rel_fits 1 (some rel) with
      | false => rfl
      | true =>
        have := (print_pathlist_ok_iff rel _).2 ⟨hf, rfl⟩
        rw [hl] at this
        cases this
    simp [hn]
  | ok lines =>
    obtain ⟨hf, rfl⟩ := (print_pathlist_ok_iff rel lines).1 hl
    simp only [hf, true_and]
    constructor
    · intro e; exact (Except.ok.inj e).symm
    · rintro rfl; rfl

theorem planning_hook_slot_ok_iff (root : PlannerInfo) (i : Nat) (out : List String) :
    planning_hook.my_planner_hook_slot root i = .ok out ↔
      rel_fits 1 (root.slot i) = true ∧ out = planning_hook.slot_lines root i := by
  unfold planning_hook.my_planner_hook_slot planning_hook.slot_lines
  change (match root.slot i with
    | none => (Except.ok [] : Except Fault (List String))
    | some rel =>
      match planning_hook.print_pathlist rel with
      | Except.error f => Except.error f
      | Except.ok o => Except.ok (("Relation #" ++ toString i) :: o)) = Except.ok out ↔ _
  cases hs : root.slot i with
  | none =>
    simp only [rel_fits, true_and]
    constructor
    · intro e; exact (Except.ok.inj e).symm
    · rintro rfl; rfl
  | some rel => exact planning_hook_rel_ok_iff _ rel out

theorem planning_hook_join_rel_ok_iff (rel : Option RelOptInfo) (out : List String) :
    planning_hook.my_planner_hook_join_rel rel = .ok out ↔
      rel_fits 1 rel = true ∧ out = planning_hook.join_rel_lines rel := by
  unfold planning_hook.my_planner_hook_join_rel planning_hook.join_rel_lines
  cases rel with
  | none =>
    simp only [rel_fits, true_and]
    constructor
    · intro e; exact (Except.ok.inj e).symm
    · rintro rfl; rfl
  | some rel => exact planning_hook_rel_ok_iff _ rel out

theorem planning_hook_loop_ok_iff (root : PlannerInfo) (out : List String) :
    planning_hook.my_planner_hook_loop root = .ok out ↔
      base_rels_fit 1 root = true ∧ out = planning_hook.sweep_lines root :=
  for_each_ok_iff (planning_hook.my_planner_hook_slot root) (fun i => rel_fits 1 (root.slot i))
    (planning_hook.slot_lines root) (planning_hook_slot_ok_iff root) _ out

theorem planning_hook_join_loop_ok_iff (root : PlannerInfo) (out : List String) :
    planning_hook.my_planner_hook_join_loop root = .ok out ↔
      join_rels_fit 1 root = true ∧ out = planning_hook.join_sweep_lines root :=
  for_each_ok_iff planning_hook.my_planner_hook_join_rel (rel_fits 1)
    planning_hook.join_rel_lines planning_hook_join_rel_ok_iff root.join_rel_list out

theorem planning_hook_ok_iff (env : HookEnv) (args : PlannerArgs) (result : PlannedStmt)
    (trace : List Event) :
    planning_hook.my_planner_hook env args = .ok (result, trace) ↔
      result = delegated_plan env args ∧
        (match global_root_after env args with
          | none => trace = [delegated_call env args,
              .elog "Global root is NULL. Cannot log paths."]
          | some root =>
            (plan_fits (delegated_plan env args).planTree 0 = true
              ∧ base_rels_fit 1 root = true ∧ join_rels_fit 1 root = true)
            ∧ trace = delegated_call env args ::
                ("\nLogging paths for all relations in the query...\n" ::
                  (plan_items (delegated_plan env args).planTree 0).map
                      planning_hook.render_plan_item
                    ++ planning_hook.sweep_lines root
                    ++ planning_hook.join_sweep_lines root).map .elog) := by
  unfold planning_hook.my_planner_hook
  rw [call_planner_eq]
  cases hr : global_root_after env args with
  | none =>
    simp only
    constructor
    · intro e
      have := Except.ok.inj e
      exact ⟨(congrArg Prod.fst this).symm, (congrArg Prod.snd this).symm⟩
    · rintro ⟨rfl, rfl⟩; rfl
  | some root =>
    simp only
    cases hp : planning_hook.print_plan_tree (delegated_plan env args).planTree 0 with
    | error f =>
      have hn := not_ok_of_false (print_plan_tree_ok_iff _ 0) f hp
      simp [hn]
    | ok plan =>
      obtain ⟨hpf, rfl⟩ := (print_plan_tree_ok_iff _ 0 plan).1 hp
      cases hb : planning_hook.my_planner_hook_loop root with
      | error f =>
        have hn := not_ok_of_false (planning_hook_loop_ok_iff root) f hb
        simp [hn]
      | ok base =>
        obtain ⟨hbf, rfl⟩ := (planning_hook_loop_ok_iff root base).1 hb
        cases hj : planning_hook.my_planner_hook_join_loop root with
        | error f =>
          have hn := not_ok_of_false (planning_hook_join_loop_ok_iff root) f hj
          simp [hn]
        | ok joins =>
          obtain ⟨hjf, rfl⟩ := (planning_hook_join_loop_ok_iff root joins).1 hj
          simp only [hpf, hbf, hjf, and_self, true_and]
          constructor
          · intro e
            have := Except.ok.inj e
            exact ⟨(congrArg Prod.fst this).symm, (congrArg Prod.snd this).symm⟩
          · rintro ⟨rfl, rfl⟩; rfl

/-! ## The claims -/

/-- C1: in both variants, every statement that `my_planner_hook` returns is
the statement the delegated planner call returned (the saved previous hook
when there is one, `standard_planner` otherwise), whether `global_root` is
null or not and whatever was rendered. The hook does return, with that
statement, exactly when `global_root` is null or the trees it renders are in
the supported range of the renderers. -/
theorem C1_hook_returns_delegated_plan (env : HookEnv) (args : PlannerArgs) :
    (∀ result trace, my_hook.my_planner_hook env args = .ok (result, trace) →
        result = delegated_plan env args)
    ∧ (∀ result trace, planning_hook.my_planner_hook env args = .ok (result, trace) →
        result = delegated_plan env args)
    ∧ ((∃ trace, my_hook.my_planner_hook env args = .ok (delegated_plan env args, trace)) ↔
        (match global_root_after env args with
          | none => True
          | some root => base_rels_fit 0 root = true))
    ∧ ((∃ trace, planning_hook.my_planner_hook env args
          = .ok (delegated_plan env args, trace)) ↔
        (match global_root_after env args with
          | none => True
          | some root => plan_fits (delegated_plan env args).planTree 0 = true
              ∧ base_rels_fit 1 root = true ∧ join_rels_fit 1 root = true)) := by
  refine ⟨fun result trace h => ((my_hook_ok_iff env args result trace).1 h).1,
    fun result trace h => ((planning_hook_ok_iff env args result trace).1 h).1, ?_, ?_⟩
  · constructor
    · rintro ⟨trace, h⟩
      have := ((my_hook_ok_iff env args _ trace).1 h).2
      cases hr : global_root_after env args with
      | none => trivial
      | some root => rw [hr] at this; exact this.1
    · intro h
      cases hr : global_root_after env args with
      | none =>
        exact ⟨_, (my_hook_ok_iff env args _ _).2 ⟨rfl, by rw [hr]⟩⟩
      | some root =>
        rw [hr] at h
        exact ⟨_, (my_hook_ok_iff env args _ _).2 ⟨rfl, by rw [hr]; exact ⟨h, rfl⟩⟩⟩
  · constructor
    · rintro ⟨trace, h⟩
      have := ((planning_hook_ok_iff env args _ trace).1 h).2
      cases hr : global_root_after env args with
      | none => trivial
      | some root => rw [hr] at this; exact this.1
    · intro h
      cases hr : global_root_after env args with
      | none =>
        exact ⟨_, (planning_hook_ok_iff env args _ _).2 ⟨rfl, by rw [hr]⟩⟩
      | some root =>
        rw [hr] at h
        exact ⟨_, (planning_hook_ok_iff env args _ _).2 ⟨rfl, by rw [hr]; exact ⟨h, rfl⟩⟩⟩

/-- C1 at a sample input: with scenario A in `global_root` both hooks return
the statement of the planner. -/
theorem C1_hook_returns_delegated_plan_witness :
    (∃ trace, my_hook.my_planner_hook (sample_env (some scenario_A)) sample_args
        = .ok (sample_stmt, trace))
    ∧ (∃ trace, planning_hook.my_planner_hook (sample_env (some scenario_A)) sample_args
        = .ok (sample_stmt, trace)) :=
  ⟨(C1_hook_returns_delegated_plan (sample_env (some scenario_A)) sample_args).2.2.1.2
      (show base_rels_fit 0 scenario_A = true by decide),
   (C1_hook_returns_delegated_plan (sample_env (some scenario_A)) sample_args).2.2.2.2
      (show plan_fits sort_plan 0 = true ∧ base_rels_fit 1 scenario_A = true
          ∧ join_rels_fit 1 scenario_A = true by decide)⟩

/-- C2: when `global_root` is null after the delegated call, `my_planner_hook`
in both variants returns the delegated statement, and its trace is the call
followed by the one message "Global root is NULL. Cannot log paths.": no plan
line, no relation header, no path line, nothing on standard output. -/
theorem C2_null_root_one_line (env : HookEnv) (args : PlannerArgs)
    (h : global_root_after env args = none) :
    my_hook.my_planner_hook env args
        = .ok (delegated_plan env args,
            [delegated_call env args, .elog "Global root is NULL. Cannot log paths."])
    ∧ planning_hook.my_planner_hook env args
        = .ok (delegated_plan env args,
            [delegated_call env args, .elog "Global root is NULL. Cannot log paths."]) := by
  constructor
  · exact (my_hook_ok_iff env args _ _).2 ⟨rfl, by rw [h]⟩
  · exact (planning_hook_ok_iff env args _ _).2 ⟨rfl, by rw [h]⟩

/-- C2 at a sample input: a planner that leaves `global_root` null. -/
theorem C2_null_root_one_line_witness :
    global_root_after (sample_env none) sample_args = none
    ∧ my_hook.my_planner_hook (sample_env none) sample_args
        = .ok (sample_stmt,
            [.call_standard_planner sample_args,
              .elog "Global root is NULL. Cannot log paths."])
    ∧ planning_hook.my_planner_hook (sample_env none) sample_args
        = .ok (sample_stmt,
            [.call_standard_planner sample_args,
              .elog "Global root is NULL. Cannot log paths."]) :=
  ⟨rfl, C2_null_root_one_line (sample_env none) sample_args rfl⟩

theorem elog_msgs_delegated_call (env : HookEnv) (args : PlannerArgs) (rest : List Event) :
    elog_msgs (delegated_call env args :: rest) = elog_msgs rest := by
  unfold delegated_call
  cases env.prev_planner_hook <;> rfl

/-- C3, as stated, fails: in scenario A (relation array of size 2, slot 1
holding one relation with the one sequential scan candidate, `total_cost`
10.00, `rows` 100.00) the hook of `my_hook.c` passes two path lines to `elog`,
not one: the line of `print_path` and the line of `log_paths`. The same holds
when the candidate carries the tag `T_SeqScanState`, the one `print_path`
labels "Seq Scan". -/
theorem C3_scenario_A_counterexample :
    my_hook.my_planner_hook (sample_env (some scenario_A)) sample_args
        = .ok (sample_stmt,
            [.call_standard_planner sample_args,
              .printf "Examining relation 1\n",
              .elog "Path type: Other Path | cost=10.00 | rows=100.00",
              .elog "Path type: Seq Scan | cost=10.00 | rows=100.00"])
    ∧ (¬ ∃ trace, my_hook.my_planner_hook (sample_env (some scenario_A)) sample_args
          = .ok (sample_stmt, trace)
        ∧ elog_msgs trace = ["Path type: Seq Scan | cost=10.00 | rows=100.00"])
    ∧ my_hook.log_paths (some ⟨4096, [.node .T_SeqScanState 0 1000 10000 .null .null]⟩)
        = .ok ["Path type: Seq Scan | cost=10.00 | rows=100.00",
               "Path type: Other Path | cost=10.00 | rows=100.00"] := by
  have h : my_hook.my_planner_hook (sample_env (some scenario_A)) sample_args
        = .ok (sample_stmt,
            [.call_standard_planner sample_args,
              .printf "Examining relation 1\n",
              .elog "Path type: Other Path | cost=10.00 | rows=100.00",
              .elog "Path type: Seq Scan | cost=10.00 | rows=100.00"]) := rfl
  refine ⟨h, ?_, rfl⟩
  rintro ⟨trace, ht, hm⟩
  rw [h] at ht
  have := congrArg Prod.snd (Except.ok.inj ht)
  simp only at this
  subst this
  revert hm
  decide

/-- C3, amended: in the variant of `my_hook.c`, for a context with a relation
array of size 2 whose slot 1 holds one relation with a single candidate, a
plain `Path` node (tag `T_Path`) with `total_cost` 10.00 and `rows` 100.00,
the hook returns and passes exactly two path lines to `elog`, both without
indentation and both with `cost=10.00 | rows=100.00`: the line of
`print_path`, then the line of `log_paths`, which is
"Path type: Seq Scan | cost=10.00 | rows=100.00". -/
theorem C3_scenario_A_two_lines (env : HookEnv) (args : PlannerArgs)
    (slot0 : Option RelOptInfo) (address : Nat) (startup_cost : Cost)
    (outerjoinpath innerjoinpath : PathRef) (join_rel_list : List (Option RelOptInfo))
    (h : global_root_after env args
      = some ⟨[slot0, some ⟨address,
          [.node .T_Path startup_cost 1000 10000 outerjoinpath innerjoinpath]⟩],
          join_rel_list⟩) :
    ∃ trace label,
      my_hook.my_planner_hook env args = .ok (delegated_plan env args, trace)
      ∧ elog_msgs trace
          = ["Path type: " ++ label ++ " | cost=10.00 | rows=100.00",
             "Path type: Seq Scan | cost=10.00 | rows=100.00"]
      ∧ indentation ("Path type: " ++ label ++ " | cost=10.00 | rows=100.00") = 0
      ∧ indentation "Path type: Seq Scan | cost=10.00 | rows=100.00" = 0 := by
  refine ⟨delegated_call env args :: my_hook.sweep_events
      ⟨[slot0, some ⟨address,
          [.node .T_Path startup_cost 1000 10000 outerjoinpath innerjoinpath]⟩],
          join_rel_list⟩, "Other Path", (my_hook_ok_iff env args _ _).2 ⟨rfl, ?_⟩, ?_,
      by decide, by decide⟩
  · rw [h]
    exact ⟨rfl, rfl⟩
  · rw [elog_msgs_delegated_call]
    rfl

/-- C3, amended, at scenario A. -/
theorem C3_scenario_A_two_lines_witness :
    ∃ trace label,
      my_hook.my_planner_hook (sample_env (some scenario_A)) sample_args
        = .ok (delegated_plan (sample_env (some scenario_A)) sample_args, trace)
      ∧ elog_msgs trace
          = ["Path type: " ++ label ++ " | cost=10.00 | rows=100.00",
             "Path type: Seq Scan | cost=10.00 | rows=100.00"]
      ∧ indentation ("Path type: " ++ label ++ " | cost=10.00 | rows=100.00") = 0
      ∧ indentation "Path type: Seq Scan | cost=10.00 | rows=100.00" = 0 :=
  C3_scenario_A_two_lines (sample_env (some scenario_A)) sample_args none 4096 0 .null .null []
    rfl

/-- C4 at the failing input, a join of two leaves rendered at level 15: the
operands are rendered at level 16, where both renderers store the terminator
at index 32 of their 32-byte buffer. The store is outside the array, which C
leaves undefined and the model records as a fault (the missing bound of C9). -/
theorem C4_join_at_level_15_overflows :
    planning_hook.print_path_info hash_join_path 15 = .error (.buffer_overflow 32 32)
    ∧ my_hook.print_path hash_join_path 15 = .error (.buffer_overflow 32 32)
    ∧ planning_hook.print_path_info_indent (15 + 1) = .error (.buffer_overflow 32 32)
    ∧ store (memset 32 ' ') ((15 + 1) * 2) NUL = .error (.buffer_overflow 32 32) :=
  ⟨rfl, rfl, rfl, rfl⟩

/-- Where the stores are inside the buffer: for every path with a join tag
(`T_NestPath`, `T_MergePath`, `T_HashPath`) whose two operands are nodes
without a join tag, `print_path_info` called at a level `L ≤ 14` emits
exactly five lines in this
order: the line of the join at level `L`, an "Outer:" header, the line of the
outer operand at level `L + 1`, an "Inner:" header, the line of the inner
operand at level `L + 1`; `print_path` does the same with "[Join left:]" and
"[Join right:]". -/
theorem C4_join_of_leaves (jtag otag itag : NodeTag)
    (jstart jtotal jrows ostart ototal orows istart itotal irows : Cost) (oo oi io ii : PathRef) (L : Nat)
    (hj : is_join_path jtag = true) (ho : is_join_path otag = false)
    (hi : is_join_path itag = false) (hL : L ≤ 14) :
    planning_hook.print_path_info
        (.node jtag jstart jtotal jrows (.node otag ostart ototal orows oo oi) (.node itag istart itotal irows io ii)) L
      = .ok [planning_hook.path_msg (spaces (2 * L))
                (planning_hook.print_path_info_type jtag) jstart jtotal jrows,
             spaces (2 * L) ++ "  Outer:",
             planning_hook.path_msg (spaces (2 * (L + 1)))
                (planning_hook.print_path_info_type otag) ostart ototal orows,
             spaces (2 * L) ++ "  Inner:",
             planning_hook.path_msg (spaces (2 * (L + 1)))
                (planning_hook.print_path_info_type itag) istart itotal irows]
    ∧ my_hook.print_path
        (.node jtag jstart jtotal jrows (.node otag ostart ototal orows oo oi) (.node itag istart itotal irows io ii)) L
      = .ok [my_hook.path_type_msg (spaces (2 * L)) (my_hook.print_path_type jtag) jtotal jrows,
             spaces (2 * L) ++ "  [Join left:]",
             my_hook.path_type_msg (spaces (2 * (L + 1))) (my_hook.print_path_type otag) ototal orows,
             spaces (2 * L) ++ "  [Join right:]",
             my_hook.path_type_msg (spaces (2 * (L + 1))) (my_hook.print_path_type itag)
                itotal irows] := by
  have hfit : path_fits
      (.node jtag jstart jtotal jrows (.node otag ostart ototal orows oo oi) (.node itag istart itotal irows io ii)) L
      = true := by
    have h1 : L + 1 ≤ 15 := by omega
    have h2 : L ≤ 15 := by omega
    simp [path_fits, hj, ho, hi, h1, h2]
  constructor
  · rw [print_path_info_of_fits _ L hfit]
    simp [path_items, hj, ho, hi, planning_hook.render_item]
  · rw [print_path_of_fits _ L hfit]
    simp [path_items, hj, ho, hi, my_hook.render_item]

/-- The five lines of a hash join of two scans at level 1. -/
theorem C4_join_of_leaves_witness :
    planning_hook.print_path_info hash_join_path 1
      = .ok ["  Path: Hash Join  cost=1.50..25.75  rows=40",
             "    Outer:",
             "    Path: Other Path  cost=0.00..10.00  rows=100",
             "    Inner:",
             "    Path: Index Scan  cost=0.25..8.50  rows=40"]
    ∧ my_hook.print_path hash_join_path 1
      = .ok ["  Path type: Hash Join | cost=25.75 | rows=40.00",
             "    [Join left:]",
             "    Path type: Other Path | cost=10.00 | rows=100.00",
             "    [Join right:]",
             "    Path type: Index Scan | cost=8.50 | rows=40.00"] :=
  C4_join_of_leaves .T_HashPath .T_Path .T_IndexPath 150 2575 4000 0 1000 10000 25 850 4000
    .null .null .null .null 1 (by decide) (by decide) (by decide) (by decide)

theorem filter_is_node_path_items (path : PathRef) :
    ∀ level, (path_items path level).filter PathItem.is_node = join_reachable path level := by
  induction path with
  | null => intro level; rfl
  | node tag s t r o i iho ihi =>
    intro level
    by_cases hj : is_join_path tag = true
    · simp [path_items, join_reachable, hj, PathItem.is_node, List.filter_append, iho, ihi,
        List.filter_cons]
    · simp [path_items, join_reachable, hj, PathItem.is_node, List.filter_cons]

/-- C5 at the failing inputs. A chain of 16 joins rendered from level 0 (15
from level 1) reaches level 16, where the renderer stores the terminator at
index 32 of its 32-byte buffer (the missing bound of C9); a join whose inner
operand is absent makes the renderer read the tag through the null reference
(the missing test of C8). C leaves both undefined and the model records a
fault, while 33 and 2 nodes are reachable. -/
theorem C5_deep_tree_overflows :
    (my_hook.print_path (left_deep 16) 0 = .error (.buffer_overflow 32 32)
      ∧ planning_hook.print_path_info (left_deep 15) 1 = .error (.buffer_overflow 32 32)
      ∧ (join_reachable (left_deep 16) 0).length = 33)
    ∧ (my_hook.print_path (.node .T_NestPath 0 1000 10000 seq_scan_path .null) 0
          = .error .null_dereference
      ∧ planning_hook.print_path_info (.node .T_NestPath 0 1000 10000 seq_scan_path .null) 0
          = .error .null_dereference
      ∧ (join_reachable (.node .T_NestPath 0 1000 10000 seq_scan_path .null) 0).length = 2) :=
  ⟨⟨rfl, rfl, rfl⟩, rfl, rfl, rfl⟩

/-- Where the stores are inside the buffer and no reference is null: for
every candidate-path tree in which every node with a join tag has both
operands present and every node lies at a level of at most
15, `print_path` and `print_path_info` emit the listing of the tree, whose
node lines are exactly the nodes reachable from the root through
`outerjoinpath` / `innerjoinpath` of nodes with a join tag (`T_NestPath`,
`T_MergePath`, `T_HashPath`), each once, in pre-order; a node with any other
tag contributes exactly one line and no recursive call, whatever its other
fields are. -/
theorem C5_reachable_nodes (path : PathRef) (level : Nat)
    (h : path_fits path level = true) :
    (my_hook.print_path path level = .ok ((path_items path level).map my_hook.render_item)
      ∧ planning_hook.print_path_info path level
          = .ok ((path_items path level).map planning_hook.render_item)
      ∧ (path_items path level).filter PathItem.is_node = join_reachable path level)
    ∧ (∀ tag startup_cost total_cost rows outerjoinpath innerjoinpath,
        path = .node tag startup_cost total_cost rows outerjoinpath innerjoinpath →
        is_join_path tag = false →
        my_hook.print_path path level
            = .ok [my_hook.path_type_msg (spaces (2 * level)) (my_hook.print_path_type tag)
                total_cost rows]
        ∧ planning_hook.print_path_info path level
            = .ok [planning_hook.path_msg (spaces (2 * level))
                (planning_hook.print_path_info_type tag) startup_cost total_cost rows]) := by
  refine ⟨⟨print_path_of_fits path level h, print_path_info_of_fits path level h,
    filter_is_node_path_items path level⟩, ?_⟩
  rintro tag s t r o i rfl hj
  rw [print_path_of_fits _ level h, print_path_info_of_fits _ level h]
  simp [path_items, hj, my_hook.render_item, planning_hook.render_item]

/-- The listing of a chain of two joins from level 1: five nodes, nine
lines. -/
theorem C5_reachable_nodes_witness :
    path_fits (left_deep 2) 1 = true
    ∧ ((path_items (left_deep 2) 1).map planning_hook.render_item).length = 9
    ∧ (join_reachable (left_deep 2) 1).length = 5
    ∧ planning_hook.print_path_info (left_deep 2) 1
        = .ok ((path_items (left_deep 2) 1).map planning_hook.render_item)
    ∧ (path_items (left_deep 2) 1).filter PathItem.is_node = join_reachable (left_deep 2) 1 :=
  ⟨by decide, by decide, by decide,
    (C5_reachable_nodes (left_deep 2) 1 (by decide)).1.2.1,
    (C5_reachable_nodes (left_deep 2) 1 (by decide)).1.2.2⟩

/-- C6: for every plan node, whatever its tag, every output of
`print_plan_tree` is the line of the node, then the rendering of `lefttree`
at `indent + 1`, then the rendering of `righttree` at `indent + 1` (nothing
for a null child); the renderer does produce it while the levels stay inside
its 64-byte buffer; and on a node without a join tag that has two children
the plan renderer emits lines for the children while both path renderers emit
the one line of the node. -/
theorem C6_plan_descent (tag : NodeTag) (startup_cost total_cost plan_rows : Cost)
    (plan_width : Int) (lefttree righttree : PlanRef) (indent : Nat) :
    (∀ out, planning_hook.print_plan_tree
        (.node tag startup_cost total_cost plan_rows plan_width lefttree righttree) indent
        = .ok out →
      ∃ left right,
        planning_hook.print_plan_tree lefttree (indent + 1) = .ok left
        ∧ planning_hook.print_plan_tree righttree (indent + 1) = .ok right
        ∧ left = (plan_items lefttree (indent + 1)).map planning_hook.render_plan_item
        ∧ right = (plan_items righttree (indent + 1)).map planning_hook.render_plan_item
        ∧ out = planning_hook.selected_plan_msg (spaces (2 * indent))
            (planning_hook.print_plan_tree_type tag) startup_cost total_cost plan_rows
            plan_width :: left ++ right)
    ∧ (plan_fits (.node tag startup_cost total_cost plan_rows plan_width lefttree righttree)
        indent = true →
      ∃ out, planning_hook.print_plan_tree
        (.node tag startup_cost total_cost plan_rows plan_width lefttree righttree) indent
        = .ok out)
    ∧ (is_join_path .T_Append = false ∧ is_join_path .T_AppendPath = false
      ∧ planning_hook.print_plan_tree append_plan 0
        = .ok ["Selected Plan: Append  cost=0.00..20.00 rows=200 width=8",
               "  Selected Plan: Seq Scan  cost=0.00..10.00 rows=100 width=8",
               "  Selected Plan: Seq Scan  cost=0.00..10.00 rows=100 width=8"]
      ∧ planning_hook.print_path_info append_path 0
        = .ok ["Path: Append  cost=0.00..20.00  rows=200"]
      ∧ my_hook.print_path append_path 0
        = .ok ["Path type: Append | cost=20.00 | rows=200.00"]) := by
  refine ⟨?_, fun h => ⟨_, print_plan_tree_of_fits _ indent h⟩, rfl, rfl, rfl, rfl, rfl⟩
  intro out h
  obtain ⟨hf, rfl⟩ := (print_plan_tree_ok_iff _ indent out).1 h
  simp only [plan_fits, Bool.and_eq_true, decide_eq_true_eq] at hf
  refine ⟨_, _, print_plan_tree_of_fits lefttree _ hf.1.2,
    print_plan_tree_of_fits righttree _ hf.2, rfl, rfl, ?_⟩
  simp [plan_items, planning_hook.render_plan_item]

/-- C6 at a sort over a scan rendered from indent 0: the line of the sort,
then the rendering of its `lefttree` at indent 1. -/
theorem C6_plan_descent_witness :
    ∃ left right,
      planning_hook.print_plan_tree (.node .T_SeqScan 0 1000 10000 8 .null .null) (0 + 1)
        = .ok left
      ∧ planning_hook.print_plan_tree .null (0 + 1) = .ok right
      ∧ ["Selected Plan: Sort  cost=12.00..14.50 rows=100 width=8",
         "  Selected Plan: Seq Scan  cost=0.00..10.00 rows=100 width=8"]
        = planning_hook.selected_plan_msg (spaces (2 * 0))
            (planning_hook.print_plan_tree_type .T_Sort) 1200 1450 10000 8 :: left ++ right := by
  obtain ⟨left, right, hl, hr, _, _, ho⟩ :=
    (C6_plan_descent .T_Sort 1200 1450 10000 8 (.node .T_SeqScan 0 1000 10000 8 .null .null)
      .null 0).1 _ (rfl : planning_hook.print_plan_tree sort_plan 0 = .ok _)
  exact ⟨left, right, hl, hr, ho⟩

theorem for_each_congr {α β : Type} (f g : α → Except Fault (List β)) (xs : List α)
    (h : ∀ x ∈ xs, f x = g x) : for_each xs f = for_each xs g := by
  induction xs with
  | nil => rfl
  | cons x rest ih =>
    unfold for_each
    rw [h x (List.mem_cons_self x rest), ih (fun y hy => h y (List.mem_cons_of_mem x hy))]

theorem slot_cons (slot0 : Option RelOptInfo) (rest joins : List (Option RelOptInfo))
    (i : Nat) (hi : 1 ≤ i) :
    (PlannerInfo.mk (slot0 :: rest) joins).slot i = rest.getD (i - 1) none := by
  obtain ⟨k, rfl⟩ : ∃ k, i = k + 1 := ⟨i - 1, by omega⟩
  simp [PlannerInfo.slot]

theorem flatMap_range'_split {β : Type} (f : Nat → List β) (s n i : Nat) (hs : s ≤ i)
    (hi : i < s + n) :
    (List.range' s n).flatMap f
      = (List.range' s (i - s)).flatMap f ++ f i
          ++ (List.range' (i + 1) (s + n - (i + 1))).flatMap f := by
  have e : List.range' s n
      = List.range' s (i - s) ++ (i :: List.range' (i + 1) (s + n - (i + 1))) := by
    have h1 := List.range'_append_1 s (i - s) (n - (i - s))
    have h2 : n - (i - s) + (i - s) = n := by omega
    have h3 : s + (i - s) = i := by omega
    rw [h2, h3] at h1
    have h4 : n - (i - s) = (s + n - (i + 1)) + 1 := by omega
    rw [h4, List.range'_succ] at h1
    exact h1.symm
  rw [e]
  simp [List.flatMap_append, List.flatMap_cons]

theorem flatMap_range'_order {β : Type} (f : Nat → List β) (s n i j : Nat) (hs : s ≤ i)
    (hij : i < j) (hj : j < s + n) :
    ∃ before between after,
      (List.range' s n).flatMap f = before ++ f i ++ between ++ f j ++ after := by
  have h1 := flatMap_range'_split f s n i hs (by omega)
  have h2 := flatMap_range'_split f (i + 1) (s + n - (i + 1)) j (by omega) (by omega)
  refine ⟨(List.range' s (i - s)).flatMap f, (List.range' (i + 1) (j - (i + 1))).flatMap f,
    (List.range' (j + 1) (i + 1 + (s + n - (i + 1)) - (j + 1))).flatMap f, ?_⟩
  rw [h1, h2]
  simp only [List.append_assoc]

/-- C7: for every non-null planning context, every trace of the
base-relation sweep is the concatenation, over the slots
`1 .. simple_rel_array_size - 1` in ascending index order, of the output of
each slot: nothing for an absent slot and, for a present relation, the
rendering of every candidate of its `pathlist` once, in list order (in
`my_hook.c` after the "Examining relation" text of the slot, in
`planning_hook.c` after the "Relation #i" header). So all lines of slot `i`
precede all lines of slot `j` whenever `i < j`, nothing is sorted, filtered or
deduplicated, and slot 0 is never read: replacing it changes nothing. The
sweep does produce its trace while the renderer it calls stays inside its
buffer. -/
theorem C7_base_relation_sweep (root : PlannerInfo) :
    (∀ out, my_hook.my_planner_hook_loop root = .ok out →
      out = (List.range' 1 (root.simple_rel_array_size - 1)).flatMap
        (my_hook.slot_events root))
    ∧ (∀ out, planning_hook.my_planner_hook_loop root = .ok out →
      out = (List.range' 1 (root.simple_rel_array_size - 1)).flatMap
        (planning_hook.slot_lines root))
    ∧ (base_rels_fit 0 root = true → ∃ out, my_hook.my_planner_hook_loop root = .ok out)
    ∧ (base_rels_fit 1 root = true →
      ∃ out, planning_hook.my_planner_hook_loop root = .ok out)
    ∧ (∀ slot0 slot0' rest joins,
        my_hook.my_planner_hook_loop ⟨slot0 :: rest, joins⟩
          = my_hook.my_planner_hook_loop ⟨slot0' :: rest, joins⟩
        ∧ planning_hook.my_planner_hook_loop ⟨slot0 :: rest, joins⟩
          = planning_hook.my_planner_hook_loop ⟨slot0' :: rest, joins⟩)
    ∧ (∀ i j, 1 ≤ i → i < j → j < root.simple_rel_array_size →
        (∃ before between after,
          my_hook.sweep_events root
            = before ++ my_hook.slot_events root i ++ between
                ++ my_hook.slot_events root j ++ after)
        ∧ (∃ before between after,
          planning_hook.sweep_lines root
            = before ++ planning_hook.slot_lines root i ++ between
                ++ planning_hook.slot_lines root j ++ after)) := by
  refine ⟨fun out h => ((my_hook_loop_ok_iff root out).1 h).2,
    fun out h => ((planning_hook_loop_ok_iff root out).1 h).2,
    fun h => ⟨_, (my_hook_loop_ok_iff root _).2 ⟨h, rfl⟩⟩,
    fun h => ⟨_, (planning_hook_loop_ok_iff root _).2 ⟨h, rfl⟩⟩, ?_, ?_⟩
  · intro slot0 slot0' rest joins
    constructor
    · apply for_each_congr
      intro i hi
      have h1 : 1 ≤ i := (List.mem_range'_1.1 hi).1
      simp only [my_hook.my_planner_hook_slot]
      have e := slot_cons slot0 rest joins i h1
      have e' := slot_cons slot0' rest joins i h1
      simp only [PlannerInfo.slot] at e e'
      rw [e, e']
    · apply for_each_congr
      intro i hi
      have h1 : 1 ≤ i := (List.mem_range'_1.1 hi).1
      simp only [planning_hook.my_planner_hook_slot]
      have e := slot_cons slot0 rest joins i h1
      have e' := slot_cons slot0' rest joins i h1
      simp only [PlannerInfo.slot] at e e'
      rw [e, e']
  · intro i j hi hij hj
    have hj' : j < 1 + (root.simple_rel_array_size - 1) := by omega
    exact ⟨flatMap_range'_order _ 1 _ i j hi hij hj', flatMap_range'_order _ 1 _ i j hi hij hj'⟩

/-- C7 at scenario C (array of size 3, slots 1 and 2 present): the events of
the sweep of `my_hook.c`, slot 1 before slot 2. -/
theorem C7_base_relation_sweep_witness :
    [Event.printf "Examining relation 1\n",
      .elog "Path type: Other Path | cost=10.00 | rows=100.00",
      .elog "Path type: Seq Scan | cost=10.00 | rows=100.00",
      .elog "Path type: Index Scan | cost=8.50 | rows=40.00",
      .elog "Path type: Index Scan | cost=8.50 | rows=40.00",
      .printf "Examining relation 2\n",
      .elog "Path type: Hash Join | cost=25.75 | rows=40.00",
      .elog "  [Join left:]",
      .elog "  Path type: Other Path | cost=10.00 | rows=100.00",
      .elog "  [Join right:]",
      .elog "  Path type: Index Scan | cost=8.50 | rows=40.00",
      .elog "Path type: Hash Join | cost=25.75 | rows=40.00"]
      = (List.range' 1 (scenario_C.simple_rel_array_size - 1)).flatMap
          (my_hook.slot_events scenario_C)
    ∧ ∃ out, my_hook.my_planner_hook_loop scenario_C = .ok out :=
  ⟨(C7_base_relation_sweep scenario_C).1 _
      (rfl : my_hook.my_planner_hook_loop scenario_C = .ok _),
    (C7_base_relation_sweep scenario_C).2.2.1 (by decide)⟩

/-! ## Indentation of the messages -/

theorem takeWhile_spaces (n : Nat) (c : Char) (rest : List Char) (hc : (c == ' ') = false) :
    (List.replicate n ' ' ++ c :: rest).takeWhile (fun c => c == ' ') = List.replicate n ' ' := by
  induction n with
  | zero => simp [hc]
  | succ k ih => simp [List.replicate_succ, ih]

theorem indentation_spaces_append (n : Nat) (body : String) (c : Char) (rest : List Char)
    (hb : body.data = c :: rest) (hc : (c == ' ') = false) :
    indentation (spaces n ++ body) = n := by
  simp [indentation, spaces, String.data_append, hb, takeWhile_spaces n c rest hc]

theorem indentation_path_type_msg (n : Nat) (type : String) (total_cost rows : Cost) :
    indentation (my_hook.path_type_msg (spaces n) type total_cost rows) = n := by
  simp only [my_hook.path_type_msg, String.append_assoc]
  exact indentation_spaces_append n _ 'P'
    ("ath type: ".data ++ (type ++ (" | cost=" ++ (fmt_2f total_cost
      ++ (" | rows=" ++ fmt_2f rows)))).data)
    (by rw [String.data_append]; rfl) (by decide)

theorem indentation_path_msg (n : Nat) (type : String) (startup_cost total_cost rows : Cost) :
    indentation (planning_hook.path_msg (spaces n) type startup_cost total_cost rows) = n := by
  simp only [planning_hook.path_msg, String.append_assoc]
  exact indentation_spaces_append n _ 'P'
    ("ath: ".data ++ (type ++ ("  cost=" ++ (fmt_2f startup_cost ++ (".."
      ++ (fmt_2f total_cost ++ ("  rows=" ++ fmt_0f rows)))))).data)
    (by rw [String.data_append]; rfl) (by decide)

theorem indentation_selected_plan_msg (n : Nat) (type : String)
    (startup_cost total_cost plan_rows : Cost) (plan_width : Int) :
    indentation (planning_hook.selected_plan_msg (spaces n) type startup_cost total_cost
      plan_rows plan_width) = n := by
  simp only [planning_hook.selected_plan_msg, String.append_assoc]
  exact indentation_spaces_append n _ 'S'
    ("elected Plan: ".data ++ (type ++ ("  cost=" ++ (fmt_2f startup_cost ++ (".."
      ++ (fmt_2f total_cost ++ (" rows=" ++ (fmt_0f plan_rows ++ (" width="
      ++ fmt_d plan_width)))))))).data)
    (by rw [String.data_append]; rfl) (by decide)

/-! ## Claims on null references, depth and indentation -/

/-- C8 at the failing inputs: given a null path reference `print_path` and
`print_path_info` read the tag through it and have no result, both when the
null reference is the argument and when it is an operand of a join; the
sibling `print_plan_tree` does return, with no line, on a null plan. -/
theorem C8_null_path_faults :
    my_hook.print_path .null 0 = .error .null_dereference
    ∧ planning_hook.print_path_info .null 1 = .error .null_dereference
    ∧ my_hook.print_path (.node .T_HashPath 150 2575 4000 seq_scan_path .null) 0
        = .error .null_dereference
    ∧ planning_hook.print_path_info (.node .T_HashPath 150 2575 4000 .null index_scan_path) 1
        = .error .null_dereference
    ∧ planning_hook.print_plan_tree .null 0 = .ok [] :=
  ⟨rfl, rfl, rfl, rfl, rfl⟩

/-- C9 at the failing inputs: nothing caps the level. For every path and every
level of 16 or more the store of the terminator at index `2 * level` is
outside the 32-byte buffer of `print_path` and of `print_path_info`, and for
every plan node and every indent of 32 or more it is outside the 64-byte
buffer of `print_plan_tree`; a chain of 16 joins rendered from level 0
reaches such a level. -/
theorem C9_no_depth_cap (path : PathRef) (level : Nat) :
    my_hook.print_path path (level + 16) = .error (.buffer_overflow ((level + 16) * 2) 32)
    ∧ planning_hook.print_path_info path (level + 16)
        = .error (.buffer_overflow ((level + 16) * 2) 32)
    ∧ (∀ tag startup_cost total_cost plan_rows plan_width lefttree righttree,
        planning_hook.print_plan_tree
            (.node tag startup_cost total_cost plan_rows plan_width lefttree righttree)
            (level + 32)
          = .error (.buffer_overflow ((level + 32) * 2) 64))
    ∧ my_hook.print_path (left_deep 16) 0 = .error (.buffer_overflow 32 32)
    ∧ planning_hook.print_path_info (left_deep 15) 1 = .error (.buffer_overflow 32 32) := by
  refine ⟨?_, ?_, ?_, rfl, rfl⟩
  · unfold my_hook.print_path
    rw [store_indent_32_overflow (level + 16) (by omega)]
  · unfold planning_hook.print_path_info
    rw [print_path_info_indent_overflow (level + 16) (by omega)]
  · intro tag s t r w l rt
    unfold planning_hook.print_plan_tree
    rw [store_indent_64_overflow (level + 32) (by omega)]

/-- C10: every node line emitted at a nesting level `d` has an indentation of
exactly `2 * d` spaces, and `d` is then in the supported range (at most 15 for
`print_path` and `print_path_info`, at most 31 for `print_plan_tree`); the
lines that follow it are those of the children rendered at level `d + 1`.
Within the supported range the renderers do emit these lines. -/
theorem C10_indentation_law (d : Nat) :
    (∀ tag startup_cost total_cost rows outerjoinpath innerjoinpath out,
      my_hook.print_path
          (.node tag startup_cost total_cost rows outerjoinpath innerjoinpath) d = .ok out →
      d ≤ 15
      ∧ indentation (my_hook.path_type_msg (spaces (2 * d)) (my_hook.print_path_type tag)
          total_cost rows) = 2 * d
      ∧ ∃ rest, out = my_hook.path_type_msg (spaces (2 * d)) (my_hook.print_path_type tag)
            total_cost rows :: rest
          ∧ (is_join_path tag = true → ∃ outer inner,
              my_hook.print_path outerjoinpath (d + 1) = .ok outer
              ∧ my_hook.print_path innerjoinpath (d + 1) = .ok inner
              ∧ rest = (spaces (2 * d) ++ "  [Join left:]") :: outer
                  ++ (spaces (2 * d) ++ "  [Join right:]") :: inner))
    ∧ (∀ tag startup_cost total_cost rows outerjoinpath innerjoinpath out,
      planning_hook.print_path_info
          (.node tag startup_cost total_cost rows outerjoinpath innerjoinpath) d = .ok out →
      d ≤ 15
      ∧ indentation (planning_hook.path_msg (spaces (2 * d))
          (planning_hook.print_path_info_type tag) startup_cost total_cost rows) = 2 * d
      ∧ ∃ rest, out = planning_hook.path_msg (spaces (2 * d))
            (planning_hook.print_path_info_type tag) startup_cost total_cost rows :: rest
          ∧ (is_join_path tag = true → ∃ outer inner,
              planning_hook.print_path_info outerjoinpath (d + 1) = .ok outer
              ∧ planning_hook.print_path_info innerjoinpath (d + 1) = .ok inner
              ∧ rest = (spaces (2 * d) ++ "  Outer:") :: outer
                  ++ (spaces (2 * d) ++ "  Inner:") :: inner))
    ∧ (∀ tag startup_cost total_cost plan_rows plan_width lefttree righttree out,
      planning_hook.print_plan_tree
          (.node tag startup_cost total_cost plan_rows plan_width lefttree righttree) d
        = .ok out →
      d ≤ 31
      ∧ indentation (planning_hook.selected_plan_msg (spaces (2 * d))
          (planning_hook.print_plan_tree_type tag) startup_cost total_cost plan_rows
          plan_width) = 2 * d
      ∧ ∃ left right,
          planning_hook.print_plan_tree lefttree (d + 1) = .ok left
          ∧ planning_hook.print_plan_tree righttree (d + 1) = .ok right
          ∧ out = planning_hook.selected_plan_msg (spaces (2 * d))
              (planning_hook.print_plan_tree_type tag) startup_cost total_cost plan_rows
              plan_width :: left ++ right)
    ∧ (∀ path, path_fits path d = true →
        (∃ out, my_hook.print_path path d = .ok out)
        ∧ ∃ out, planning_hook.print_path_info path d = .ok out)
    ∧ (∀ plan, plan_fits plan d = true → ∃ out, planning_hook.print_plan_tree plan d = .ok out)
    := by
  refine ⟨?_, ?_, ?_, ?_, ?_⟩
  · intro tag s t r o i out h
    obtain ⟨hf, rfl⟩ := (print_path_ok_iff _ d out).1 h
    simp only [path_fits, Bool.and_eq_true, decide_eq_true_eq] at hf
    refine ⟨hf.1, indentation_path_type_msg _ _ _ _, _, rfl, ?_⟩
    intro hj
    have hc := hf.2
    simp only [hj, if_true, Bool.and_eq_true] at hc
    refine ⟨_, _, print_path_of_fits o _ hc.1, print_path_of_fits i _ hc.2, ?_⟩
    simp [hj, my_hook.render_item]
  · intro tag s t r o i out h
    obtain ⟨hf, rfl⟩ := (print_path_info_ok_iff _ d out).1 h
    simp only [path_fits, Bool.and_eq_true, decide_eq_true_eq] at hf
    refine ⟨hf.1, indentation_path_msg _ _ _ _ _, _, rfl, ?_⟩
    intro hj
    have hc := hf.2
    simp only [hj, if_true, Bool.and_eq_true] at hc
    refine ⟨_, _, print_path_info_of_fits o _ hc.1, print_path_info_of_fits i _ hc.2, ?_⟩
    simp [hj, planning_hook.render_item]
  · intro tag s t r w l rt out h
    obtain ⟨hf, rfl⟩ := (print_plan_tree_ok_iff _ d out).1 h
    simp only [plan_fits, Bool.and_eq_true, decide_eq_true_eq] at hf
    exact ⟨hf.1.1, indentation_selected_plan_msg _ _ _ _ _ _, _, _,
      print_plan_tree_of_fits l _ hf.1.2, print_plan_tree_of_fits rt _ hf.2,
      by simp [plan_items, planning_hook.render_plan_item]⟩
  · intro path h
    exact ⟨⟨_, print_path_of_fits path d h⟩, ⟨_, print_path_info_of_fits path d h⟩⟩
  · intro plan h
    exact ⟨_, print_plan_tree_of_fits plan d h⟩

/-- C10 at a hash join rendered at level 3: the line of the join is indented
by 6 spaces and its operands are rendered at level 4. -/
theorem C10_indentation_law_witness :
    planning_hook.print_path_info hash_join_path 3
        = .ok ["      Path: Hash Join  cost=1.50..25.75  rows=40",
               "        Outer:",
               "        Path: Other Path  cost=0.00..10.00  rows=100",
               "        Inner:",
               "        Path: Index Scan  cost=0.25..8.50  rows=40"]
    ∧ indentation "      Path: Hash Join  cost=1.50..25.75  rows=40" = 2 * 3
    ∧ ∃ outer inner,
        planning_hook.print_path_info seq_scan_path (3 + 1) = .ok outer
        ∧ planning_hook.print_path_info index_scan_path (3 + 1) = .ok inner :=
  have h := ((C10_indentation_law 3).2.1 .T_HashPath 150 2575 4000 seq_scan_path
    index_scan_path _ (rfl : planning_hook.print_path_info hash_join_path 3 = .ok _))
  ⟨rfl, h.2.1, by
    obtain ⟨_, _, hj⟩ := h.2.2
    obtain ⟨outer, inner, ho, hi, _⟩ := hj (by decide)
    exact ⟨outer, inner, ho, hi⟩⟩

/-! ## Label lines, classifiers, pre-order -/

theorem indentation_label (n : Nat) (body : String) (c : Char) (rest : List Char)
    (hb : body.data = ' ' :: ' ' :: c :: rest) (hc : (c == ' ') = false) :
    indentation (spaces n ++ body) = n + 2 := by
  have e : List.replicate n ' ' ++ ' ' :: ' ' :: c :: rest
      = List.replicate (n + 2) ' ' ++ c :: rest := by
    rw [List.replicate_add]
    simp [List.replicate_succ]
  simp only [indentation, spaces, String.data_append, hb, e, takeWhile_spaces (n + 2) c rest hc,
    List.length_replicate]

theorem print_path_leaf_iff (tag : NodeTag) (startup_cost total_cost rows : Cost)
    (outerjoinpath innerjoinpath : PathRef) (level : Nat) (out : List String)
    (hj : is_join_path tag = false) :
    (my_hook.print_path
        (.node tag startup_cost total_cost rows outerjoinpath innerjoinpath) level = .ok out ↔
      level ≤ 15 ∧ out = [my_hook.path_type_msg (spaces (2 * level))
        (my_hook.print_path_type tag) total_cost rows])
    ∧ (planning_hook.print_path_info
        (.node tag startup_cost total_cost rows outerjoinpath innerjoinpath) level = .ok out ↔
      level ≤ 15 ∧ out = [planning_hook.path_msg (spaces (2 * level))
        (planning_hook.print_path_info_type tag) startup_cost total_cost rows]) := by
  constructor
  · rw [print_path_ok_iff]
    simp [path_fits, path_items, hj, my_hook.render_item]
  · rw [print_path_info_ok_iff]
    simp [path_fits, path_items, hj, planning_hook.render_item]

theorem print_plan_tree_node_iff (tag : NodeTag) (startup_cost total_cost plan_rows : Cost)
    (plan_width : Int) (lefttree righttree : PlanRef) (indent : Nat) (out : List String) :
    planning_hook.print_plan_tree
        (.node tag startup_cost total_cost plan_rows plan_width lefttree righttree) indent
      = .ok out ↔
    indent ≤ 31 ∧ ∃ left right,
      planning_hook.print_plan_tree lefttree (indent + 1) = .ok left
      ∧ planning_hook.print_plan_tree righttree (indent + 1) = .ok right
      ∧ out = planning_hook.selected_plan_msg (spaces (2 * indent))
          (planning_hook.print_plan_tree_type tag) startup_cost total_cost plan_rows
          plan_width :: left ++ right := by
  rw [print_plan_tree_ok_iff]
  constructor
  · rintro ⟨hf, rfl⟩
    simp only [plan_fits, Bool.and_eq_true, decide_eq_true_eq] at hf
    exact ⟨hf.1.1, _, _, print_plan_tree_of_fits lefttree _ hf.1.2,
      print_plan_tree_of_fits righttree _ hf.2,
      by simp [plan_items, planning_hook.render_plan_item]⟩
  · rintro ⟨hi, left, right, hl, hr, rfl⟩
    obtain ⟨hfl, rfl⟩ := (print_plan_tree_ok_iff _ _ _).1 hl
    obtain ⟨hfr, rfl⟩ := (print_plan_tree_ok_iff _ _ _).1 hr
    refine ⟨by simp [plan_fits, hi, hfl, hfr], ?_⟩
    simp [plan_items, planning_hook.render_plan_item]

/-- C11, as stated, fails: for the hash join rendered at level 1 the line of
the join has 2 leading spaces, and each of the two label lines has 4, in
`print_path_info` and in `print_path`. -/
theorem C11_label_indentation_counterexample :
    planning_hook.print_path_info hash_join_path 1
      = .ok ["  Path: Hash Join  cost=1.50..25.75  rows=40",
             "    Outer:",
             "    Path: Other Path  cost=0.00..10.00  rows=100",
             "    Inner:",
             "    Path: Index Scan  cost=0.25..8.50  rows=40"]
    ∧ my_hook.print_path hash_join_path 1
      = .ok ["  Path type: Hash Join | cost=25.75 | rows=40.00",
             "    [Join left:]",
             "    Path type: Other Path | cost=10.00 | rows=100.00",
             "    [Join right:]",
             "    Path type: Index Scan | cost=8.50 | rows=40.00"]
    ∧ indentation "  Path: Hash Join  cost=1.50..25.75  rows=40" = 2 * 1
    ∧ indentation "    Outer:" ≠ 2 * 1 ∧ indentation "    Inner:" ≠ 2 * 1
    ∧ indentation "    [Join left:]" ≠ 2 * 1 ∧ indentation "    [Join right:]" ≠ 2 * 1 :=
  ⟨rfl, rfl, by decide, by decide, by decide, by decide, by decide⟩

/-- C11, amended: for a join path rendered at level `L`, each of the two
label lines ("Outer:" / "Inner:" in `print_path_info`, "[Join left:]" /
"[Join right:]" in `print_path`) is emitted with two spaces more than the
line of the join: the line of the join has `2 * L` leading spaces and each
label line has `2 * L + 2`. -/
theorem C11_label_indentation (tag : NodeTag) (startup_cost total_cost rows : Cost)
    (outerjoinpath innerjoinpath : PathRef) (L : Nat) (hj : is_join_path tag = true) :
    (∀ out, planning_hook.print_path_info
        (.node tag startup_cost total_cost rows outerjoinpath innerjoinpath) L = .ok out →
      ∃ line outer_label inner_label outer inner,
        out = line :: outer_label :: outer ++ inner_label :: inner
        ∧ planning_hook.print_path_info outerjoinpath (L + 1) = .ok outer
        ∧ planning_hook.print_path_info innerjoinpath (L + 1) = .ok inner
        ∧ outer_label = spaces (2 * L) ++ "  Outer:"
        ∧ inner_label = spaces (2 * L) ++ "  Inner:"
        ∧ indentation line = 2 * L
        ∧ indentation outer_label = 2 * L + 2
        ∧ indentation inner_label = 2 * L + 2)
    ∧ (∀ out, my_hook.print_path
        (.node tag startup_cost total_cost rows outerjoinpath innerjoinpath) L = .ok out →
      ∃ line outer_label inner_label outer inner,
        out = line :: outer_label :: outer ++ inner_label :: inner
        ∧ my_hook.print_path outerjoinpath (L + 1) = .ok outer
        ∧ my_hook.print_path innerjoinpath (L + 1) = .ok inner
        ∧ outer_label = spaces (2 * L) ++ "  [Join left:]"
        ∧ inner_label = spaces (2 * L) ++ "  [Join right:]"
        ∧ indentation line = 2 * L
        ∧ indentation outer_label = 2 * L + 2
        ∧ indentation inner_label = 2 * L + 2) := by
  constructor
  · intro out h
    obtain ⟨hf, rfl⟩ := (print_path_info_ok_iff _ L out).1 h
    simp only [path_fits, Bool.and_eq_true, decide_eq_true_eq, hj, if_true] at hf
    refine ⟨planning_hook.path_msg (spaces (2 * L)) (planning_hook.print_path_info_type tag)
        startup_cost total_cost rows, _, _, _, _, ?_, print_path_info_of_fits _ _ hf.2.1,
      print_path_info_of_fits _ _ hf.2.2, rfl, rfl, indentation_path_msg (2 * L) _ _ _ _,
      indentation_label (2 * L) _ 'O' "uter:".data rfl (by decide),
      indentation_label (2 * L) _ 'I' "nner:".data rfl (by decide)⟩
    simp [path_items, hj, planning_hook.render_item]
  · intro out h
    obtain ⟨hf, rfl⟩ := (print_path_ok_iff _ L out).1 h
    simp only [path_fits, Bool.and_eq_true, decide_eq_true_eq, hj, if_true] at hf
    refine ⟨my_hook.path_type_msg (spaces (2 * L)) (my_hook.print_path_type tag)
        total_cost rows, _, _, _, _, ?_, print_path_of_fits _ _ hf.2.1,
      print_path_of_fits _ _ hf.2.2, rfl, rfl, indentation_path_type_msg (2 * L) _ _ _,
      indentation_label (2 * L) _ '[' "Join left:]".data rfl (by decide),
      indentation_label (2 * L) _ '[' "Join right:]".data rfl (by decide)⟩
    simp [path_items, hj, my_hook.render_item]

/-- C11, amended, at the hash join rendered at level 1. -/
theorem C11_label_indentation_witness :
    ∃ line outer_label inner_label outer inner,
      ["  Path: Hash Join  cost=1.50..25.75  rows=40",
       "    Outer:",
       "    Path: Other Path  cost=0.00..10.00  rows=100",
       "    Inner:",
       "    Path: Index Scan  cost=0.25..8.50  rows=40"]
        = line :: outer_label :: outer ++ inner_label :: inner
      ∧ planning_hook.print_path_info seq_scan_path (1 + 1) = .ok outer
      ∧ planning_hook.print_path_info index_scan_path (1 + 1) = .ok inner
      ∧ outer_label = spaces (2 * 1) ++ "  Outer:"
      ∧ inner_label = spaces (2 * 1) ++ "  Inner:"
      ∧ indentation line = 2 * 1
      ∧ indentation outer_label = 2 * 1 + 2
      ∧ indentation inner_label = 2 * 1 + 2 :=
  (C11_label_indentation .T_HashPath 150 2575 4000 seq_scan_path index_scan_path 1
    (by decide)).1 _ (rfl : planning_hook.print_path_info hash_join_path 1 = .ok _)

/-- C12: each classifier falls back. A tag that the `switch` of `print_path`,
of `log_paths` or of `print_path_info` does not list gets the label
"Other Path" (and is no join tag), a tag that the `switch` of
`print_plan_tree` does not list gets "Other Plan"; and the rendering does not
depend on whether the tag is listed: for every tag without a join tag the
path renderers emit the one line of the node with the label of the
classifier, and for every tag the plan renderer emits the line of the node
with the label of the classifier, then the rendering of `lefttree` and of
`righttree` one level down. -/
theorem C12_classifier_fallback (tag : NodeTag) :
    (tag ∉ my_hook.print_path_tags →
      my_hook.print_path_type tag = "Other Path" ∧ is_join_path tag = false)
    ∧ (tag ∉ my_hook.log_paths_tags →
      my_hook.log_paths_type tag = "Other Path" ∧ is_join_path tag = false)
    ∧ (tag ∉ planning_hook.print_path_info_tags →
      planning_hook.print_path_info_type tag = "Other Path" ∧ is_join_path tag = false)
    ∧ (tag ∉ planning_hook.print_plan_tree_tags →
      planning_hook.print_plan_tree_type tag = "Other Plan")
    ∧ (is_join_path tag = false →
      ∀ startup_cost total_cost rows outerjoinpath innerjoinpath level out,
        (my_hook.print_path
            (.node tag startup_cost total_cost rows outerjoinpath innerjoinpath) level
            = .ok out ↔
          level ≤ 15 ∧ out = [my_hook.path_type_msg (spaces (2 * level))
            (my_hook.print_path_type tag) total_cost rows])
        ∧ (planning_hook.print_path_info
            (.node tag startup_cost total_cost rows outerjoinpath innerjoinpath) level
            = .ok out ↔
          level ≤ 15 ∧ out = [planning_hook.path_msg (spaces (2 * level))
            (planning_hook.print_path_info_type tag) startup_cost total_cost rows])
        ∧ my_hook.log_paths_cell
            (.node tag startup_cost total_cost rows outerjoinpath innerjoinpath)
          = .ok [my_hook.path_type_msg (spaces (2 * 0)) (my_hook.print_path_type tag)
                  total_cost rows,
                my_hook.path_type_msg "" (my_hook.log_paths_type tag) total_cost rows])
    ∧ (∀ startup_cost total_cost plan_rows plan_width lefttree righttree indent out,
        planning_hook.print_plan_tree
            (.node tag startup_cost total_cost plan_rows plan_width lefttree righttree) indent
          = .ok out ↔
        indent ≤ 31 ∧ ∃ left right,
          planning_hook.print_plan_tree lefttree (indent + 1) = .ok left
          ∧ planning_hook.print_plan_tree righttree (indent + 1) = .ok right
          ∧ out = planning_hook.selected_plan_msg (spaces (2 * indent))
              (planning_hook.print_plan_tree_type tag) startup_cost total_cost plan_rows
              plan_width :: left ++ right) := by
  refine ⟨?_, ?_, ?_, ?_, ?_, ?_⟩
  · intro h
    cases tag <;> simp [my_hook.print_path_tags] at h <;>
      exact ⟨rfl, rfl⟩
  · intro h
    cases tag <;> simp [my_hook.log_paths_tags] at h <;>
      exact ⟨rfl, rfl⟩
  · intro h
    cases tag <;> simp [planning_hook.print_path_info_tags] at h <;>
      exact ⟨rfl, rfl⟩
  · intro h
    cases tag <;> simp [planning_hook.print_plan_tree_tags] at h <;> rfl
  · intro hj s c r o i level out
    refine ⟨(print_path_leaf_iff tag s c r o i level out hj).1,
      (print_path_leaf_iff tag s c r o i level out hj).2, ?_⟩
    have hp := (print_path_leaf_iff tag s c r o i 0 _ hj).1.2 ⟨by omega, rfl⟩
    unfold my_hook.log_paths_cell
    rw [hp]
    rfl
  · intro s c r w l rt indent out
    exact print_plan_tree_node_iff tag s c r w l rt indent out

/-- C12 at a tag that no `switch` lists, `T_Other 7`, and at the tag `T_Path`
in `print_path`. -/
theorem C12_classifier_fallback_witness :
    my_hook.print_path_type (.T_Other 7) = "Other Path"
    ∧ my_hook.log_paths_type (.T_Other 7) = "Other Path"
    ∧ planning_hook.print_path_info_type (.T_Other 7) = "Other Path"
    ∧ planning_hook.print_plan_tree_type (.T_Other 7) = "Other Plan"
    ∧ my_hook.print_path_type .T_Path = "Other Path"
    ∧ planning_hook.print_plan_tree unknown_plan 0
        = .ok ["Selected Plan: Other Plan  cost=5.00..9.00 rows=30 width=16",
               "  Selected Plan: Seq Scan  cost=0.00..10.00 rows=100 width=8"] :=
  ⟨((C12_classifier_fallback (.T_Other 7)).1 (by decide)).1,
   ((C12_classifier_fallback (.T_Other 7)).2.1 (by decide)).1,
   ((C12_classifier_fallback (.T_Other 7)).2.2.1 (by decide)).1,
   (C12_classifier_fallback (.T_Other 7)).2.2.2.1 (by decide),
   ((C12_classifier_fallback .T_Path).1 (by decide)).1,
   ((C12_classifier_fallback (.T_Other 7)).2.2.2.2.2 500 900 3000 16
      (.node .T_SeqScan 0 1000 10000 8 .null .null) .null 0 _).2
      ⟨by decide, _, _, rfl, rfl, rfl⟩⟩

theorem length_plan_items (plan : PlanRef) :
    ∀ indent, (plan_items plan indent).length = plan_nodes plan := by
  induction plan with
  | null => intro indent; rfl
  | node tag s t r w l rt ihl ihr =>
    intro indent
    simp [plan_items, plan_nodes, ihl, ihr]
    omega

/-- C13: for every plan tree within the supported depth (every node at a
level of at most 31) `print_plan_tree` emits the pre-order listing of the
tree: the line of the node, then the complete output for `lefttree`, then the
complete output for `righttree`, both one level down; the number of lines is
the number of nodes of the tree, and so for each subtree. -/
theorem C13_plan_preorder (plan : PlanRef) (indent : Nat)
    (h : plan_fits plan indent = true) :
    ∃ out, planning_hook.print_plan_tree plan indent = .ok out
      ∧ out = (plan_items plan indent).map planning_hook.render_plan_item
      ∧ out.length = plan_nodes plan
      ∧ ∀ tag startup_cost total_cost plan_rows plan_width lefttree righttree,
          plan = .node tag startup_cost total_cost plan_rows plan_width lefttree righttree →
          ∃ left right,
            planning_hook.print_plan_tree lefttree (indent + 1) = .ok left
            ∧ planning_hook.print_plan_tree righttree (indent + 1) = .ok right
            ∧ left.length = plan_nodes lefttree
            ∧ right.length = plan_nodes righttree
            ∧ out = planning_hook.selected_plan_msg (spaces (2 * indent))
                (planning_hook.print_plan_tree_type tag) startup_cost total_cost plan_rows
                plan_width :: left ++ right := by
  refine ⟨_, print_plan_tree_of_fits plan indent h, rfl, ?_, ?_⟩
  · rw [List.length_map, length_plan_items]
  · rintro tag s c r w l rt rfl
    have h' := h
    simp only [plan_fits, Bool.and_eq_true, decide_eq_true_eq] at h'
    refine ⟨_, _, print_plan_tree_of_fits l _ h'.1.2, print_plan_tree_of_fits rt _ h'.2,
      ?_, ?_, ?_⟩
    · rw [List.length_map, length_plan_items]
    · rw [List.length_map, length_plan_items]
    · simp [plan_items, planning_hook.render_plan_item]

/-- C13 at the append over two scans, rendered from indent 0: three nodes,
three lines, the line of the append first. -/
theorem C13_plan_preorder_witness :
    ∃ out, planning_hook.print_plan_tree append_plan 0 = .ok out
      ∧ out = ["Selected Plan: Append  cost=0.00..20.00 rows=200 width=8",
               "  Selected Plan: Seq Scan  cost=0.00..10.00 rows=100 width=8",
               "  Selected Plan: Seq Scan  cost=0.00..10.00 rows=100 width=8"]
      ∧ out.length = plan_nodes append_plan := by
  obtain ⟨out, h1, h2, h3, _⟩ := C13_plan_preorder append_plan 0 (by decide)
  exact ⟨out, h1, h2.trans rfl, h3⟩

/-! ## Composition of the trace, delegation, load and unload -/

/-- C14, as stated, fails: the trace of the hook of `planning_hook.c` starts
with a banner line that comes before the lines of the plan tree, so the
messages are not the plan lines followed by the relation lines; and for a
context whose join relation holds the join of 16 relations the rendering
reaches level 16, stores outside the 32-byte buffer, and there is no trace. -/
theorem C14_trace_order_counterexample :
    planning_hook.my_planner_hook (sample_env (some scenario_join)) sample_args
      = .ok (sample_stmt,
          [.call_standard_planner sample_args,
           .elog "\nLogging paths for all relations in the query...\n",
           .elog "Selected Plan: Sort  cost=12.00..14.50 rows=100 width=8",
           .elog "  Selected Plan: Seq Scan  cost=0.00..10.00 rows=100 width=8",
           .elog "Relation #1",
           .elog "  Path: Other Path  cost=0.00..10.00  rows=100",
           .elog "Relation #2",
           .elog "  Path: Index Scan  cost=0.25..8.50  rows=40",
           .elog "Join Relation 0x3000",
           .elog "  Path: Hash Join  cost=1.50..25.75  rows=40",
           .elog "    Outer:",
           .elog "    Path: Other Path  cost=0.00..10.00  rows=100",
           .elog "    Inner:",
           .elog "    Path: Index Scan  cost=0.25..8.50  rows=40"])
    ∧ (¬ ∃ trace, planning_hook.my_planner_hook (sample_env (some scenario_join)) sample_args
          = .ok (sample_stmt, trace)
        ∧ elog_msgs trace
          = (plan_items sort_plan 0).map planning_hook.render_plan_item
              ++ planning_hook.sweep_lines scenario_join
              ++ planning_hook.join_sweep_lines scenario_join)
    ∧ planning_hook.my_planner_hook (sample_env (some deep_join_root)) sample_args
      = .error (.buffer_overflow 32 32) := by
  have h : planning_hook.my_planner_hook (sample_env (some scenario_join)) sample_args
      = .ok (sample_stmt,
          [.call_standard_planner sample_args,
           .elog "\nLogging paths for all relations in the query...\n",
           .elog "Selected Plan: Sort  cost=12.00..14.50 rows=100 width=8",
           .elog "  Selected Plan: Seq Scan  cost=0.00..10.00 rows=100 width=8",
           .elog "Relation #1",
           .elog "  Path: Other Path  cost=0.00..10.00  rows=100",
           .elog "Relation #2",
           .elog "  Path: Index Scan  cost=0.25..8.50  rows=40",
           .elog "Join Relation 0x3000",
           .elog "  Path: Hash Join  cost=1.50..25.75  rows=40",
           .elog "    Outer:",
           .elog "    Path: Other Path  cost=0.00..10.00  rows=100",
           .elog "    Inner:",
           .elog "    Path: Index Scan  cost=0.25..8.50  rows=40"]) := rfl
  refine ⟨h, ?_, rfl⟩
  rintro ⟨trace, ht, hm⟩
  rw [h] at ht
  have := congrArg Prod.snd (Except.ok.inj ht)
  simp only at this
  subst this
  have hl := congrArg List.length hm
  revert hl
  decide

/-- C14, amended: in `planning_hook.c`, for every non-null context whose plan
tree and candidates are in the supported range of the renderers, the trace is
the call of the underlying planner and then these messages in this order: one
banner line, all lines of the selected plan tree rendered from its root at
indent 0, then for each present base relation in ascending slot order a
"Relation #i" header followed by its candidates rendered at level 1, then for
each join relation of `join_rel_list` in list order a "Join Relation" header
followed by its candidates rendered at level 1. -/
theorem C14_trace_order (env : HookEnv) (args : PlannerArgs) (root : PlannerInfo)
    (hroot : global_root_after env args = some root)
    (hplan : plan_fits (delegated_plan env args).planTree 0 = true)
    (hbase : base_rels_fit 1 root = true) (hjoin : join_rels_fit 1 root = true) :
    ∃ plan base joins,
      planning_hook.my_planner_hook env args
        = .ok (delegated_plan env args,
            delegated_call env args ::
              ("\nLogging paths for all relations in the query...\n"
                :: plan ++ base ++ joins).map .elog)
      ∧ planning_hook.print_plan_tree (delegated_plan env args).planTree 0 = .ok plan
      ∧ base = (List.range' 1 (root.simple_rel_array_size - 1)).flatMap (fun i =>
          match root.slot i with
          | none => []
          | some rel => ("Relation #" ++ toString i) ::
              rel.pathlist.flatMap (fun path =>
                (path_items path 1).map planning_hook.render_item))
      ∧ joins = root.join_rel_list.flatMap (fun rel =>
          match rel with
          | none => []
          | some rel => ("Join Relation " ++ fmt_p rel.address) ::
              rel.pathlist.flatMap (fun path =>
                (path_items path 1).map planning_hook.render_item))
      ∧ (∀ rel ∈ root.join_rel_list ++ (List.range' 1 (root.simple_rel_array_size - 1)).map
            root.slot,
          ∀ r, rel = some r → ∀ path ∈ r.pathlist,
            planning_hook.print_path_info path 1
              = .ok ((path_items path 1).map planning_hook.render_item)) := by
  refine ⟨_, planning_hook.sweep_lines root, planning_hook.join_sweep_lines root,
    (planning_hook_ok_iff env args _ _).2 ⟨rfl, by rw [hroot]; exact ⟨⟨hplan, hbase, hjoin⟩, rfl⟩⟩,
    print_plan_tree_of_fits _ 0 hplan, rfl, rfl, ?_⟩
  intro rel hrel r hr path hpath
  apply print_path_info_of_fits
  subst hr
  rcases List.mem_append.1 hrel with hmem | hmem
  · have := List.all_eq_true.1 hjoin _ hmem
    simp only [rel_fits] at this
    exact List.all_eq_true.1 this _ hpath
  · obtain ⟨i, hi, hs⟩ := List.mem_map.1 hmem
    have := List.all_eq_true.1 hbase _ hi
    rw [hs] at this
    simp only [rel_fits] at this
    exact List.all_eq_true.1 this _ hpath

/-- C14, amended, at a context with two base relations and one join
relation. -/
theorem C14_trace_order_witness :
    ∃ plan base joins,
      planning_hook.my_planner_hook (sample_env (some scenario_join)) sample_args
        = .ok (sample_stmt,
            .call_standard_planner sample_args ::
              ("\nLogging paths for all relations in the query...\n"
                :: plan ++ base ++ joins).map .elog)
      ∧ plan = ["Selected Plan: Sort  cost=12.00..14.50 rows=100 width=8",
                "  Selected Plan: Seq Scan  cost=0.00..10.00 rows=100 width=8"]
      ∧ base = ["Relation #1", "  Path: Other Path  cost=0.00..10.00  rows=100",
                "Relation #2", "  Path: Index Scan  cost=0.25..8.50  rows=40"]
      ∧ joins = ["Join Relation 0x3000", "  Path: Hash Join  cost=1.50..25.75  rows=40",
                 "    Outer:", "    Path: Other Path  cost=0.00..10.00  rows=100",
                 "    Inner:", "    Path: Index Scan  cost=0.25..8.50  rows=40"] := by
  obtain ⟨plan, base, joins, h, hp, hb, hj, _⟩ :=
    C14_trace_order (sample_env (some scenario_join)) sample_args scenario_join rfl
      (by decide) (by decide) (by decide)
  exact ⟨plan, base, joins, h, Except.ok.inj (hp.symm.trans rfl), hb.trans rfl, hj.trans rfl⟩

theorem filter_is_call_map_elog (lines : List String) :
    (lines.map Event.elog).filter Event.is_call = [] := by
  induction lines with
  | nil => rfl
  | cons l rest ih => simp [List.filter_cons, Event.is_call, ih]

theorem filter_is_call_sweep_events (root : PlannerInfo) :
    (my_hook.sweep_events root).filter Event.is_call = [] := by
  unfold my_hook.sweep_events
  induction List.range' 1 (root.simple_rel_array_size - 1) with
  | nil => rfl
  | cons i rest ih =>
    simp only [List.flatMap_cons, List.filter_append, ih, List.append_nil]
    simp [my_hook.slot_events, List.filter_cons, Event.is_call, filter_is_call_map_elog]

/-- C15: in both variants, whenever `my_planner_hook` returns, its trace
starts with the call of one underlying planner and holds no other call: the
saved previous hook when `prev_planner_hook` is not null, `standard_planner`
otherwise, called with the four arguments the hook received; every message
and every text on standard output comes after it, and the statement returned
is the one that call returned. The hook does return when `global_root` is
null after the call, and the delegation at the head of both hook functions
is that one call for every invocation. -/
theorem C15_delegation (env : HookEnv) (args : PlannerArgs) :
    (∀ result trace,
      my_hook.my_planner_hook env args = .ok (result, trace)
        ∨ planning_hook.my_planner_hook env args = .ok (result, trace) →
      ∃ rest,
        trace = (match env.prev_planner_hook with
            | some _ => Event.call_prev_planner_hook args
            | none => Event.call_standard_planner args) :: rest
        ∧ rest.filter Event.is_call = []
        ∧ result = (match env.prev_planner_hook with
            | some prev => (prev args env.global_root).1
            | none => (env.standard_planner args env.global_root).1))
    ∧ (global_root_after env args = none →
        (∃ trace, my_hook.my_planner_hook env args = .ok (delegated_plan env args, trace))
        ∧ ∃ trace, planning_hook.my_planner_hook env args
            = .ok (delegated_plan env args, trace))
    ∧ call_planner env args
        = (match env.prev_planner_hook with
          | some prev => (Event.call_prev_planner_hook args, prev args env.global_root)
          | none => (Event.call_standard_planner args,
              env.standard_planner args env.global_root)) := by
  refine ⟨?_, ?_, rfl⟩
  · rintro result trace (h | h)
    · obtain ⟨hr, ht⟩ := (my_hook_ok_iff env args result trace).1 h
      cases hg : global_root_after env args with
      | none =>
        rw [hg] at ht
        exact ⟨_, ht, rfl, hr⟩
      | some root =>
        rw [hg] at ht
        exact ⟨_, ht.2, filter_is_call_sweep_events root, hr⟩
    · obtain ⟨hr, ht⟩ := (planning_hook_ok_iff env args result trace).1 h
      cases hg : global_root_after env args with
      | none =>
        rw [hg] at ht
        exact ⟨_, ht, rfl, hr⟩
      | some root =>
        rw [hg] at ht
        exact ⟨_, ht.2, filter_is_call_map_elog _, hr⟩
  · intro hg
    exact ⟨⟨_, (my_hook_ok_iff env args _ _).2 ⟨rfl, by rw [hg]⟩⟩,
      ⟨_, (planning_hook_ok_iff env args _ _).2 ⟨rfl, by rw [hg]⟩⟩⟩

/-- C15 at an environment with a saved previous hook and scenario A in
`global_root`: the trace of the hook of `my_hook.c` starts with the call of
the previous hook. -/
theorem C15_delegation_witness :
    ∃ rest,
      [Event.call_prev_planner_hook sample_args,
        .printf "Examining relation 1\n",
        .elog "Path type: Other Path | cost=10.00 | rows=100.00",
        .elog "Path type: Seq Scan | cost=10.00 | rows=100.00"]
        = Event.call_prev_planner_hook sample_args :: rest
      ∧ rest.filter Event.is_call = []
      ∧ sample_stmt = sample_stmt :=
  (C15_delegation (chained_env (some scenario_A)) sample_args).1 sample_stmt _
    (Or.inl (rfl : my_hook.my_planner_hook (chained_env (some scenario_A)) sample_args
      = .ok (sample_stmt,
          [.call_prev_planner_hook sample_args,
            .printf "Examining relation 1\n",
            .elog "Path type: Other Path | cost=10.00 | rows=100.00",
            .elog "Path type: Seq Scan | cost=10.00 | rows=100.00"])))

/-- C16: on the state (`planner_hook`, `prev_planner_hook`), `_PG_init` of
either module stores the installed hook in `prev_planner_hook` and sets
`planner_hook` to the module's `my_planner_hook`, and `_PG_fini` after
`_PG_init` leaves `planner_hook` equal to its value before `_PG_init`, for
every initial state, a null `planner_hook` included. -/
theorem C16_init_fini (s : HookState) :
    ((my_hook._PG_init s).prev_planner_hook = s.planner_hook
      ∧ (my_hook._PG_init s).planner_hook = some .my_hook_my_planner_hook
      ∧ (my_hook._PG_fini (my_hook._PG_init s)).planner_hook = s.planner_hook)
    ∧ ((planning_hook._PG_init s).prev_planner_hook = s.planner_hook
      ∧ (planning_hook._PG_init s).planner_hook = some .planning_hook_my_planner_hook
      ∧ (planning_hook._PG_fini (planning_hook._PG_init s)).planner_hook = s.planner_hook) :=
  ⟨⟨rfl, rfl, rfl⟩, rfl, rfl, rfl⟩

/-! ## Line counts and the second classifier -/

theorem length_path_items (path : PathRef) :
    ∀ level, path_fits path level = true →
      (path_items path level).length = 4 * join_count path + 1
      ∧ ((path_items path level).filter PathItem.is_node).length = 2 * join_count path + 1
      ∧ ((path_items path level).filter (fun it => !it.is_node)).length
          = 2 * join_count path := by
  induction path with
  | null => intro level h; simp [path_fits] at h
  | node tag s t r o i iho ihi =>
    intro level h
    simp only [path_fits, Bool.and_eq_true, decide_eq_true_eq] at h
    by_cases hj : is_join_path tag = true
    · have hc := h.2
      simp only [hj, if_true, Bool.and_eq_true] at hc
      obtain ⟨o1, o2, o3⟩ := iho _ hc.1
      obtain ⟨i1, i2, i3⟩ := ihi _ hc.2
      have n1 : PathItem.is_node (.node tag s t r level) = true := rfl
      have n2 : PathItem.is_node (.outer_label level) = false := rfl
      have n3 : PathItem.is_node (.inner_label level) = false := rfl
      simp only [path_items, join_count, hj, if_true, List.length_cons, List.length_append,
        List.filter_cons, List.filter_append, n1, n2, n3, Bool.not_true,
        Bool.not_false, Bool.false_eq_true, if_false, o1, o2, o3, i1, i2, i3]
      refine ⟨by omega, by omega, by omega⟩
    · have n1 : PathItem.is_node (.node tag s t r level) = true := rfl
      simp [path_items, join_count, hj, n1, List.filter_cons]

/-- C17: for every candidate-path tree with `J` nodes with a join tag, in
which every such node has both operands present and every node lies at a
level of at most 15, `print_path_info` and `print_path` emit exactly
`4 * J + 1` lines: `2 * J + 1` node lines and `2 * J` label lines. -/
theorem C17_line_count (path : PathRef) (level : Nat) (h : path_fits path level = true) :
    (∃ out, planning_hook.print_path_info path level = .ok out
      ∧ out.length = 4 * join_count path + 1)
    ∧ (∃ out, my_hook.print_path path level = .ok out
      ∧ out.length = 4 * join_count path + 1)
    ∧ (join_reachable path level).length = 2 * join_count path + 1
    ∧ ((path_items path level).filter (fun it => !it.is_node)).length = 2 * join_count path
    ∧ planning_hook.print_path_info path level
        = .ok ((path_items path level).map planning_hook.render_item)
    ∧ my_hook.print_path path level = .ok ((path_items path level).map my_hook.render_item) := by
  obtain ⟨h1, h2, h3⟩ := length_path_items path level h
  refine ⟨⟨_, print_path_info_of_fits path level h, by rw [List.length_map, h1]⟩,
    ⟨_, print_path_of_fits path level h, by rw [List.length_map, h1]⟩, ?_, h3,
    print_path_info_of_fits path level h, print_path_of_fits path level h⟩
  rw [← filter_is_node_path_items, h2]

/-- C17 at a chain of three joins rendered from level 1: 13 lines. -/
theorem C17_line_count_witness :
    join_count (left_deep 3) = 3
    ∧ (∃ out, planning_hook.print_path_info (left_deep 3) 1 = .ok out
      ∧ out.length = 4 * 3 + 1)
    ∧ (∃ out, my_hook.print_path (left_deep 3) 1 = .ok out ∧ out.length = 4 * 3 + 1) :=
  ⟨by decide, (C17_line_count (left_deep 3) 1 (by decide)).1,
    (C17_line_count (left_deep 3) 1 (by decide)).2.1⟩

/-- C18: in `my_hook.c`, for every candidate `log_paths` emits the lines of
`print_path(path, 0)` followed by one further line without indentation,
"Path type:" with the label of the classifier of `log_paths`; the first line
of `print_path` carries the label of the classifier of `print_path`, and the
two labels are equal if and only if the tag is none of `T_Path`,
`T_SeqScanState`, `T_BitmapAndPath`, `T_BitmapOrPath`, `T_TidPath`,
`T_SubqueryScanPath`. -/
theorem C18_second_classifier (tag : NodeTag) (startup_cost total_cost rows : Cost)
    (outerjoinpath innerjoinpath : PathRef) :
    (∀ out, my_hook.log_paths_cell
        (.node tag startup_cost total_cost rows outerjoinpath innerjoinpath) = .ok out ↔
      ∃ lines, my_hook.print_path
          (.node tag startup_cost total_cost rows outerjoinpath innerjoinpath) 0 = .ok lines
        ∧ out = lines ++ [my_hook.path_type_msg "" (my_hook.log_paths_type tag)
            total_cost rows])
    ∧ (∀ lines, my_hook.print_path
          (.node tag startup_cost total_cost rows outerjoinpath innerjoinpath) 0 = .ok lines →
        ∃ rest, lines = my_hook.path_type_msg "" (my_hook.print_path_type tag)
          total_cost rows :: rest)
    ∧ indentation (my_hook.path_type_msg "" (my_hook.log_paths_type tag) total_cost rows) = 0
    ∧ (my_hook.log_paths_type tag = my_hook.print_path_type tag ↔
        tag ∉ [NodeTag.T_Path, .T_SeqScanState, .T_BitmapAndPath, .T_BitmapOrPath,
          .T_TidPath, .T_SubqueryScanPath])
    ∧ (∀ rel out, my_hook.log_paths (some rel) = .ok out ↔
        rel_fits 0 (some rel) = true ∧ out = rel.pathlist.flatMap my_hook.candidate_lines) := by
  refine ⟨?_, ?_, indentation_path_type_msg 0 _ _ _, ?_, fun rel out => log_paths_ok_iff _ out⟩
  · intro out
    unfold my_hook.log_paths_cell
    cases hp : my_hook.print_path
        (.node tag startup_cost total_cost rows outerjoinpath innerjoinpath) 0 with
    | error f => simp
    | ok lines =>
      simp only [Except.ok.injEq, exists_eq_left']
      constructor
      · intro e; exact e.symm
      · intro e; exact e.symm
  · intro lines h
    obtain ⟨_, rfl⟩ := (print_path_ok_iff _ 0 lines).1 h
    exact ⟨_, rfl⟩
  · cases tag <;> simp [my_hook.log_paths_type, my_hook.print_path_type]

/-- C18 at the sequential scan candidate, tag `T_Path`: the labels differ. -/
theorem C18_second_classifier_witness :
    my_hook.log_paths_cell seq_scan_path
      = .ok ["Path type: Other Path | cost=10.00 | rows=100.00",
             "Path type: Seq Scan | cost=10.00 | rows=100.00"]
    ∧ my_hook.log_paths_type .T_Path ≠ my_hook.print_path_type .T_Path
    ∧ my_hook.log_paths_type .T_IndexPath = my_hook.print_path_type .T_IndexPath :=
  ⟨((C18_second_classifier .T_Path 0 1000 10000 .null .null).1 _).2 ⟨_, rfl, rfl⟩,
   fun e => ((C18_second_classifier .T_Path 0 1000 10000 .null .null).2.2.2.1.1 e) (by decide),
   (C18_second_classifier .T_IndexPath 0 0 0 .null .null).2.2.2.1.2 (by decide)⟩

end PgHook
